import Mathlib

/-
Verification development for the fleetctl reconciliation engine.

Shallow embedding of:
  internal/state/store.go      (ledger / store)
  internal/metrics/metrics.go  (process-global metrics register)
  internal/fleet/fleet.go      (Scale, RollingRestart, SyncState, verifyActualMatches)
  cmd/fleetctl/main.go         (control loop tick, POST /scale handler)

Modelling conventions:
  - Go machine ints are modelled as Lean Int (no overflow is relevant at the
    value ranges involved; Go int is 64-bit and all arithmetic here is small).
  - Wall-clock time is modelled as Nat seconds; functions that read the clock
    take an explicit "now" parameter.
  - The persisted store document is modelled as a total function from fleet
    name to FleetState; a missing key is the zero value, exactly like a Go map.
  - File I/O always succeeds in the model (load/save errors are orthogonal to
    every claim below); cloud calls are modelled by explicit oracles carried
    in environment records (a None result is a failed RPC).
  - Goroutine result channels are modelled by the list of results in the
    order the collecting loop receives them.
-/

namespace Fleetctl

/-! Data model: internal/state/store.go -/

inductive Status where
  | active
  | terminated
deriving DecidableEq, Repr

structure InstanceRecord where
  id : String
  group : String
  name : String
  status : Status
  createdAt : Nat
  updatedAt : Nat
deriving DecidableEq, Repr

structure FleetState where
  fleetName : String
  instances : List InstanceRecord
  updatedAt : Nat
deriving DecidableEq, Repr

def FleetState.zero : FleetState := ⟨"", [], 0⟩

/-- Out-of-range default for indexed access (never hit on in-range indices). -/
def InstanceRecord.zero : InstanceRecord := ⟨"", "", "", Status.terminated, 0, 0⟩

/-- Root document: fleet name to FleetState, a Go map with zero-value default. -/
def StoreRoot := String → FleetState

def StoreRoot.empty : StoreRoot := fun _ => FleetState.zero

def getFleet (r : StoreRoot) (name : String) : FleetState := r name

def setFleet (r : StoreRoot) (name : String) (fs : FleetState) : StoreRoot :=
  fun n => if n = name then fs else r n

/-- Store.CountActive: number of records with status Active for the fleet. -/
def countActive (r : StoreRoot) (fleetName : String) : Nat :=
  ((getFleet r fleetName).instances.filter (fun i => i.status = Status.active)).length

/-- Indices of active records, ascending, as computed by RemoveActiveInstances. -/
def activeIdx (insts : List InstanceRecord) : List Nat :=
  (List.range insts.length).filter
    (fun i => (insts.getD i InstanceRecord.zero).status = Status.active)

/-- Mark the records whose index (counting from base) lies in sel. -/
def markFrom (now : Nat) (sel : List Nat) : Nat → List InstanceRecord → List InstanceRecord
  | _, [] => []
  | i, q :: rest =>
      (if i ∈ sel then { q with status := Status.terminated, updatedAt := now } else q)
        :: markFrom now sel (i + 1) rest

/-- Store.RemoveActiveInstances: marks up to n active instances as terminated,
highest indices first, and returns how many it marked.  For n <= 0 it returns
(0, unchanged).  The Go loop walks the sorted active-index list from the end
while removed < n; the set it marks is exactly the last min(n, #active)
entries of that list. -/
def removeActiveInstances (r : StoreRoot) (fleetName : String) (n : Int) (now : Nat) :
    Int × StoreRoot :=
  if n ≤ 0 then (0, r)
  else
    let fs := getFleet r fleetName
    let sel := (activeIdx fs.instances).reverse.take n.toNat
    let insts := markFrom now sel 0 fs.instances
    let fs2 : FleetState := { fs with instances := insts, updatedAt := now }
    ((sel.length : Int), setFleet r fleetName fs2)

/-- Modelled from the spec: Store.AddActiveRecord is called by the engine but its
definition is not among the provided sources (src/internal/state/store.go is an
earlier revision without it).  Per the spec operation table it appends a new
Active record with now timestamps. -/
def addActiveRecord (r : StoreRoot) (fleetName group id name : String) (now : Nat) :
    StoreRoot :=
  let fs := getFleet r fleetName
  let q : InstanceRecord := ⟨id, group, name, Status.active, now, now⟩
  setFleet r fleetName { fs with fleetName := fleetName
                                 instances := fs.instances ++ [q]
                                 updatedAt := now }

/-- Modelled from the spec: Store.MarkTerminatedByIDs is called by the engine but
its definition is not among the provided sources.  Per the spec it sets
status=Terminated and updates updated-at for every record whose id is in the
set, idempotently. -/
def markTerminatedByIDs (r : StoreRoot) (fleetName : String) (ids : List String) (now : Nat) :
    StoreRoot :=
  let fs := getFleet r fleetName
  let insts := fs.instances.map (fun q =>
    if q.id ∈ ids then { q with status := Status.terminated, updatedAt := now } else q)
  setFleet r fleetName { fs with instances := insts, updatedAt := now }

/-- Modelled from the spec: Store.ActiveRecordsLIFO is called by the engine but
its definition is not among the provided sources.  Per the spec it returns up
to k Active records in a deterministic selection order; following its name and
the last-index-first selection of RemoveActiveInstances in the provided store
source, the model returns the most recently appended active records first. -/
def activeRecordsLIFO (r : StoreRoot) (fleetName : String) (k : Int) : List InstanceRecord :=
  (((getFleet r fleetName).instances.filter
      (fun i => i.status = Status.active)).reverse).take k.toNat

/-- Modelled from the spec: Store.ResetFleetActive is called by SyncState but its
definition is not among the provided sources.  Per the spec it replaces all
records for that fleet with the given records. -/
def resetFleetActive (r : StoreRoot) (fleetName : String) (recs : List InstanceRecord)
    (now : Nat) : StoreRoot :=
  setFleet r fleetName ⟨fleetName, recs, now⟩

/-! Metrics register: internal/metrics/metrics.go.
The StartedAt and LastUpdate timestamp fields are omitted from the model
(every setter touches LastUpdate and no claim concerns the timestamps).
The scaleQueue field is present in the revision of metrics.go that
cmd/fleetctl/main.go is compiled against (it calls metrics.AppendScaleQueue and
reads the scaleQueue entry of Snapshot); that revision is not among the
provided sources, so the queue and its two operations are modelled from the
spec. -/

structure ActionsMetrics where
  operation : String
  phase : String
  launchRequested : Int
  launchSucceeded : Int
  launchFailed : Int
  terminateRequested : Int
  terminateSucceeded : Int
  terminateFailed : Int
  rollingRestartIndex : Int
  rollingRestartTotal : Int
  lbEnabled : Bool
  lbId : String
  lbBackends : Int
  targetTotal : Int
  startTotal : Int
  lastError : String
  scaleQueue : List Int
deriving DecidableEq, Repr

def ActionsMetrics.init : ActionsMetrics :=
  ⟨"", "", 0, 0, 0, 0, 0, 0, 0, 0, false, "", 0, 0, 0, "", []⟩

/-- metrics.Reset: overwrites the operation and clears counters (the scale
queue is not a counter of the current operation and is mutated only by the
enqueue and pop operations). -/
def mReset (m : ActionsMetrics) (operation : String) : ActionsMetrics :=
  { m with operation := operation
           phase := "planning"
           targetTotal := 0
           startTotal := 0
           launchRequested := 0
           launchSucceeded := 0
           launchFailed := 0
           terminateRequested := 0
           terminateSucceeded := 0
           terminateFailed := 0
           rollingRestartIndex := 0
           rollingRestartTotal := 0
           lastError := "" }

/-- metrics.Done: phase done, operation cleared. -/
def mDone (m : ActionsMetrics) : ActionsMetrics :=
  { m with phase := "done", operation := "" }

def mSetPhase (m : ActionsMetrics) (phase : String) : ActionsMetrics :=
  { m with phase := phase }

def mSetError (m : ActionsMetrics) (err : String) : ActionsMetrics :=
  { m with lastError := err }

/-- metrics.SetScaleTargets: clamps negatives to zero. -/
def mSetScaleTargets (m : ActionsMetrics) (start target : Int) : ActionsMetrics :=
  { m with startTotal := if start < 0 then 0 else start
           targetTotal := if target < 0 then 0 else target }

/-- metrics.IncLaunchRequested: adds n then clamps the total at zero. -/
def mIncLaunchRequested (m : ActionsMetrics) (n : Int) : ActionsMetrics :=
  let v := m.launchRequested + n
  { m with launchRequested := if v < 0 then 0 else v }

def mIncLaunchSucceeded (m : ActionsMetrics) : ActionsMetrics :=
  { m with launchSucceeded := m.launchSucceeded + 1 }

def mIncLaunchFailed (m : ActionsMetrics) (err : String) : ActionsMetrics :=
  { m with launchFailed := m.launchFailed + 1
           lastError := if err = "" then m.lastError else err }

/-- metrics.IncTerminateRequested: adds n then clamps the total at zero. -/
def mIncTerminateRequested (m : ActionsMetrics) (n : Int) : ActionsMetrics :=
  let v := m.terminateRequested + n
  { m with terminateRequested := if v < 0 then 0 else v }

def mIncTerminateSucceeded (m : ActionsMetrics) : ActionsMetrics :=
  { m with terminateSucceeded := m.terminateSucceeded + 1 }

def mIncTerminateFailed (m : ActionsMetrics) (err : String) : ActionsMetrics :=
  { m with terminateFailed := m.terminateFailed + 1
           lastError := if err = "" then m.lastError else err }

def mSetRollingRestart (m : ActionsMetrics) (index total : Int) : ActionsMetrics :=
  { m with rollingRestartIndex := index, rollingRestartTotal := total }

/-- metrics.UpdateLB: clamps a negative backend count to zero. -/
def mUpdateLB (m : ActionsMetrics) (enabled : Bool) (id : String) (backends : Int) :
    ActionsMetrics :=
  { m with lbEnabled := enabled
           lbId := id
           lbBackends := if backends < 0 then 0 else backends }

/-- metrics.SetLBBackends: clamps a negative count to zero. -/
def mSetLBBackends (m : ActionsMetrics) (n : Int) : ActionsMetrics :=
  { m with lbBackends := if n < 0 then 0 else n }

/-- Modelled from the spec: metrics.AppendScaleQueue appends a desired total to
the end of the pending scale queue (the metrics.go revision with the queue is
not among the provided sources; main.go calls it). -/
def mAppendScaleQueue (m : ActionsMetrics) (d : Int) : ActionsMetrics :=
  { m with scaleQueue := m.scaleQueue ++ [d] }

/-- Modelled from the spec: metrics.PopScaleQueueIfHead pops the head of the
pending scale queue if and only if it equals d. -/
def mPopScaleQueueIfHead (m : ActionsMetrics) (d : Int) : ActionsMetrics :=
  match m.scaleQueue with
  | [] => m
  | h :: t => if h = d then { m with scaleQueue := t } else m

/-! The exported mutating operations of internal/metrics/metrics.go as a
syntax of operations, for reasoning about arbitrary call sequences. -/

inductive MOp where
  | reset (operation : String)
  | done
  | setPhase (phase : String)
  | setError (err : String)
  | setScaleTargets (start target : Int)
  | incLaunchRequested (n : Int)
  | incLaunchSucceeded
  | incLaunchFailed (err : String)
  | incTerminateRequested (n : Int)
  | incTerminateSucceeded
  | incTerminateFailed (err : String)
  | setRollingRestart (index total : Int)
  | updateLB (enabled : Bool) (id : String) (backends : Int)
  | setLBBackends (n : Int)
deriving DecidableEq, Repr

def applyMOp (m : ActionsMetrics) : MOp → ActionsMetrics
  | MOp.reset operation => mReset m operation
  | MOp.done => mDone m
  | MOp.setPhase phase => mSetPhase m phase
  | MOp.setError err => mSetError m err
  | MOp.setScaleTargets s t => mSetScaleTargets m s t
  | MOp.incLaunchRequested n => mIncLaunchRequested m n
  | MOp.incLaunchSucceeded => mIncLaunchSucceeded m
  | MOp.incLaunchFailed err => mIncLaunchFailed m err
  | MOp.incTerminateRequested n => mIncTerminateRequested m n
  | MOp.incTerminateSucceeded => mIncTerminateSucceeded m
  | MOp.incTerminateFailed err => mIncTerminateFailed m err
  | MOp.setRollingRestart i t => mSetRollingRestart m i t
  | MOp.updateLB e id b => mUpdateLB m e id b
  | MOp.setLBBackends n => mSetLBBackends m n

def runMOps (m : ActionsMetrics) (ops : List MOp) : ActionsMetrics :=
  ops.foldl applyMOp m

/-- The nine counter and gauge fields named by claim C10. -/
def metricsNonneg (m : ActionsMetrics) : Prop :=
  0 ≤ m.launchRequested ∧ 0 ≤ m.launchSucceeded ∧ 0 ≤ m.launchFailed ∧
  0 ≤ m.terminateRequested ∧ 0 ≤ m.terminateSucceeded ∧ 0 ≤ m.terminateFailed ∧
  0 ≤ m.startTotal ∧ 0 ≤ m.targetTotal ∧ 0 ≤ m.lbBackends

/-! Configuration (internal/config/config.go), flattened to the fields the
engine paths read.  namePref models Spec.DisplayNamePrefix. -/

structure InstanceSpec where
  name : String
  count : Int
deriving DecidableEq, Repr

structure FleetConfigM where
  name : String
  instances : List InstanceSpec
  namePref : String
  lbEnabled : Bool
  parallelLaunch : Int
  parallelTerminate : Int
deriving DecidableEq, Repr

/-- Instance as returned by the cloud adapter list/launch calls. -/
structure InstanceInfo where
  id : String
  displayName : String
deriving DecidableEq, Repr

/-- Scale: group strategy, first configured group name if non-empty else
default. -/
def defaultGroup (cfg : FleetConfigM) : String :=
  match cfg.instances with
  | g :: _ => if g.name = "" then "default" else g.name
  | [] => "default"

/-- Observable side-effect calls of an engine operation, in program order.
Within a concurrent worker pool the order among the workers own calls is a
chosen linearization; claims below depend only on facts stable under that
choice. -/
inductive Ev where
  | lbRemoveIp (ip : String)
  | lbAddIp (ip : String)
  | termCall (id : String)
  | markCall (ids : List String)
  | launchCall (group : String)
  | appendRec (id : String)
deriving DecidableEq, Repr

/-- Errors returned by Scale, with the context Go wraps into the message. -/
inductive ScaleErr where
  | negativeDesired
  | launchFailed (err : String)
  | terminateFailed (id : String)
  | verifyListFailed
  | verifyTimeout (actual desired : Int)
  | syncListFailed
deriving DecidableEq, Repr

def ScaleErr.msg : ScaleErr → String
  | ScaleErr.negativeDesired => "desiredTotal must be >= 0"
  | ScaleErr.launchFailed e => "launch OCI instances: " ++ e
  | ScaleErr.terminateFailed id => "terminate instances: terminate " ++ id
  | ScaleErr.verifyListFailed => "verify actual count"
  | ScaleErr.verifyTimeout a d =>
      "scale verify timeout: actual=" ++ toString a ++ " desired=" ++ toString d
  | ScaleErr.syncListFailed => "list fleet instances"

/-- Environment of one Scale invocation: the outcomes of every cloud call it
may perform.  launchResults is in the order the collecting loop receives
results from the channel; termOk i is the outcome of the i-th termination;
verifyPolls i is the length of the i-th tag-filtered list during
verification (none is a failed list call). -/
structure ScaleEnv where
  listResult : Option (List InstanceInfo)
  launchResults : List (Except String InstanceInfo)
  termOk : Nat → Bool
  lbEnsure : Option String
  ipOf : String → Option String
  lbCount : Option Int
  verifyPolls : Nat → Option Nat
  syncList : Option (List InstanceInfo)

/-- Inner loop of verifyActualMatches.  Poll i happens 2*i seconds after
entry; the deadline test now greater-than deadline first succeeds at
2*i > 120, that is i = 61, so budget counts the remaining iterations. -/
def verifyLoop (desired : Int) (polls : Nat → Option Nat) :
    (budget i : Nat) → Except ScaleErr Unit
  | budget, i =>
    match polls i with
    | none => Except.error ScaleErr.verifyListFailed
    | some actual =>
      if (actual : Int) = desired then Except.ok ()
      else
        match budget with
        | 0 => Except.error (ScaleErr.verifyTimeout actual desired)
        | b + 1 => verifyLoop desired polls b (i + 1)

/-- Iterations before the 2-minute deadline elapses at the 2-second poll
interval: the first poll with 2*i > 120 is i = 61. -/
def verifyBudget : Nat := 61

/-- verifyActualMatches: poll the tag-filtered instance list every 2 seconds
until its length equals desired, against a 2-minute deadline from entry. -/
def verifyActualMatches (desired : Int) (polls : Nat → Option Nat) : Except ScaleErr Unit :=
  verifyLoop desired polls verifyBudget 0

/-- Group parsed from a display name by SyncState:
prefix-group-timestamp-idx, prefix defaulting to the fleet name and a dash. -/
def parseGroup (cfg : FleetConfigM) (displayName : String) : String :=
  let pref := if cfg.namePref.trim = "" then cfg.name ++ "-" else cfg.namePref
  if displayName.startsWith pref then
    let rest := displayName.drop pref.length
    match rest.toList.findIdx? (fun c => c = '-') with
    | some i => if 0 < i then (rest.toList.take i).asString else "default"
    | none => "default"
  else "default"

def syncRecords (cfg : FleetConfigM) (insts : List InstanceInfo) (now : Nat) :
    List InstanceRecord :=
  insts.map (fun it =>
    ⟨it.id, parseGroup cfg it.displayName, it.displayName, Status.active, now, now⟩)

/-- SyncState: list the tagged instances and rebuild the fleet ledger from
them (created-at and updated-at set to now). -/
def syncStateModel (cfg : FleetConfigM) (s : StoreRoot)
    (listRes : Option (List InstanceInfo)) (now : Nat) : Except ScaleErr StoreRoot :=
  match listRes with
  | none => Except.error ScaleErr.syncListFailed
  | some l => Except.ok (resetFleetActive s cfg.name (syncRecords cfg l now) now)

structure PLOut where
  res : Except ScaleErr (List InstanceInfo)
  store : StoreRoot
  metrics : ActionsMetrics
  trace : List Ev

/-- The launch result collection loop of Scale (for r := range resCh): on the
first error it increments launchFailed and aborts; per success it appends an
Active ledger record and increments launchSucceeded. -/
def processLaunch (fleetName group : String) (now : Nat) :
    List (Except String InstanceInfo) → StoreRoot → ActionsMetrics → PLOut
  | [], s, m => ⟨Except.ok [], s, m, []⟩
  | r :: rest, s, m =>
    match r with
    | Except.error e => ⟨Except.error (ScaleErr.launchFailed e), s, mIncLaunchFailed m e, []⟩
    | Except.ok inst =>
      let s1 := addActiveRecord s fleetName group inst.id inst.displayName now
      let m1 := mIncLaunchSucceeded m
      let out := processLaunch fleetName group now rest s1 m1
      ⟨out.res.map (fun l => inst :: l), out.store, out.metrics,
        Ev.appendRec inst.id :: out.trace⟩

/-- Backend-add calls attempted for the new instances whose primary IP
resolves (resolution failures are logged and skipped). -/
def lbAddEvs (env : ScaleEnv) (newInsts : List InstanceInfo) : List Ev :=
  newInsts.foldr (fun inst acc =>
    match env.ipOf inst.id with
    | none => acc
    | some ip => Ev.lbAddIp ip :: acc) []

/-- Backend-remove calls attempted for the selected ids whose primary IP
resolves (resolution failures are logged and skipped). -/
def lbRemoveEvs (env : ScaleEnv) (ids : List String) : List Ev :=
  ids.foldr (fun id acc =>
    match env.ipOf id with
    | none => acc
    | some ip => Ev.lbRemoveIp ip :: acc) []

/-- The scale-up load-balancer block: when ensure succeeds, add a backend for
each new instance whose primary IP resolves (failures logged, never fatal),
then publish the backend count.  The LBInfo cache write to the store is not
modelled (the provided store.go revision has no LB fields and no claim
concerns the cache). -/
def lbAddBlock (env : ScaleEnv) (newInsts : List InstanceInfo) (m : ActionsMetrics) :
    ActionsMetrics × List Ev :=
  match env.lbEnsure with
  | none => (m, [])
  | some lbID =>
    let evs := lbAddEvs env newInsts
    let m1 := match env.lbCount with
      | some n => mUpdateLB m true lbID n
      | none => mUpdateLB m true lbID 0
    (m1, evs)

/-- The scale-down load-balancer block: before terminating, remove the backend
of each selected instance whose primary IP resolves (failures logged, never
fatal), then publish the backend count. -/
def lbRemoveBlock (env : ScaleEnv) (ids : List String) (m : ActionsMetrics) :
    ActionsMetrics × List Ev :=
  if ids.isEmpty then (m, [])
  else
    match env.lbEnsure with
    | none => (m, [])
    | some lbID =>
      let evs := lbRemoveEvs env ids
      let m1 := match env.lbCount with
        | some n => mUpdateLB m true lbID n
        | none => mUpdateLB m true lbID 0
      (m1, evs)

structure TLOut where
  metrics : ActionsMetrics
  firstErr : Option String
  trace : List Ev

/-- The terminate worker pool of scale-down: every worker runs (all results
are collected before the loop over the error channel), each failure
increments terminateFailed, each success terminateSucceeded; the returned
id is the first failure in collection order. -/
def termLoop (termOk : Nat → Bool) :
    Nat → List String → ActionsMetrics → TLOut
  | _, [], m => ⟨m, none, []⟩
  | i, id :: rest, m =>
    let ok := termOk i
    let m1 := if ok then mIncTerminateSucceeded m
              else mIncTerminateFailed m ("terminate " ++ id)
    let out := termLoop termOk (i + 1) rest m1
    ⟨out.metrics, if ok then out.firstErr else some id, Ev.termCall id :: out.trace⟩

structure ScaleResult where
  res : Except ScaleErr Unit
  store : StoreRoot
  metrics : ActionsMetrics
  trace : List Ev

/-- The part of the scale-up branch after the launch pool has been collected:
abort carrying the first launch error, else optionally register LB backends,
verify, then SyncState. -/
def scaleUpTail (cfg : FleetConfigM) (env : ScaleEnv) (now : Nat) (desired : Int)
    (launchEvs : List Ev) (out : PLOut) : ScaleResult :=
  match out.res with
  | Except.error e => ⟨Except.error e, out.store, out.metrics, launchEvs ++ out.trace⟩
  | Except.ok newInsts =>
    let m3 := if cfg.lbEnabled then (lbAddBlock env newInsts out.metrics).1 else out.metrics
    let lbEvs := if cfg.lbEnabled then (lbAddBlock env newInsts out.metrics).2 else []
    let m4 := mSetPhase m3 "verify"
    let trace := launchEvs ++ out.trace ++ lbEvs
    match verifyActualMatches desired env.verifyPolls with
    | Except.error e => ⟨Except.error e, out.store, mSetError m4 e.msg, trace⟩
    | Except.ok _ =>
      match syncStateModel cfg out.store env.syncList now with
      | Except.error e => ⟨Except.error e, out.store, m4, trace⟩
      | Except.ok s2 => ⟨Except.ok (), s2, mDone m4, trace⟩

/-- The scale-up branch of Fleet.Scale: launch desired minus remote
instances, record each success, abort on the first failure, optionally
register LB backends, verify, then SyncState. -/
def scaleUpGo (cfg : FleetConfigM) (s : StoreRoot) (m : ActionsMetrics) (env : ScaleEnv)
    (now : Nat) (desired remote : Int) : ScaleResult :=
  let group := defaultGroup cfg
  let missing := (desired - remote).toNat
  let m1 := mIncLaunchRequested
    (mSetPhase (mSetScaleTargets (mReset m "scale-up") remote desired) "launch")
    (missing : Int)
  scaleUpTail cfg env now desired (List.replicate missing (Ev.launchCall group))
    (processLaunch cfg.name group now (env.launchResults.take missing) s m1)

/-- The part of the scale-down branch after the terminate pool has been
collected: abort wrapping the first terminate error, else mark the batch
terminated, verify, then SyncState. -/
def scaleDownTail (cfg : FleetConfigM) (env : ScaleEnv) (now : Nat) (desired : Int)
    (s : StoreRoot) (ids : List String) (lbEvs : List Ev) (out : TLOut) : ScaleResult :=
  match out.firstErr with
  | some id => ⟨Except.error (ScaleErr.terminateFailed id), s, out.metrics,
      lbEvs ++ out.trace⟩
  | none =>
    let s1 := markTerminatedByIDs s cfg.name ids now
    let m3 := mSetPhase out.metrics "verify"
    let trace := lbEvs ++ out.trace ++ [Ev.markCall ids]
    match verifyActualMatches desired env.verifyPolls with
    | Except.error e => ⟨Except.error e, s1, mSetError m3 e.msg, trace⟩
    | Except.ok _ =>
      match syncStateModel cfg s1 env.syncList now with
      | Except.error e => ⟨Except.error e, s1, m3, trace⟩
      | Except.ok s2 => ⟨Except.ok (), s2, mDone m3, trace⟩

/-- The scale-down branch of Fleet.Scale: select local minus desired ledger
records, optionally deregister their LB backends first, terminate them all,
abort if any failed, mark the batch terminated, verify, then SyncState. -/
def scaleDownGo (cfg : FleetConfigM) (s : StoreRoot) (m : ActionsMetrics) (env : ScaleEnv)
    (now : Nat) (desired current remote : Int) : ScaleResult :=
  let toRemove := current - desired
  let ids := (activeRecordsLIFO s cfg.name toRemove).map (fun q => q.id)
  let mA := if cfg.lbEnabled then (lbRemoveBlock env ids m).1 else m
  let lbEvs := if cfg.lbEnabled then (lbRemoveBlock env ids m).2 else []
  let m1 := mIncTerminateRequested
    (mSetPhase (mSetScaleTargets (mReset mA "scale-down") remote desired) "terminate")
    (ids.length : Int)
  scaleDownTail cfg env now desired s ids lbEvs (termLoop env.termOk 0 ids m1)

/-- Fleet.Scale, internal/fleet/fleet.go.  desired below zero is rejected;
remote falls back to the local count when the list call fails; equal local,
remote and desired is a no-op; otherwise dispatch on desired greater than
remote. -/
def scaleModel (cfg : FleetConfigM) (s : StoreRoot) (m : ActionsMetrics) (env : ScaleEnv)
    (now : Nat) (desired : Int) : ScaleResult :=
  if desired < 0 then ⟨Except.error ScaleErr.negativeDesired, s, m, []⟩
  else
    let current : Int := (countActive s cfg.name : Int)
    let remote : Int := match env.listResult with
      | some l => (l.length : Int)
      | none => current
    if desired = current ∧ desired = remote then ⟨Except.ok (), s, m, []⟩
    else
      if remote < desired then scaleUpGo cfg s m env now desired remote
      else scaleDownGo cfg s m env now desired current remote

/-! RollingRestart (internal/fleet/fleet.go): strictly serial one-by-one
replacement of the active records. -/

/-- Environment of one rolling-restart step: primary-IP resolution of the old
instance, the termination outcome, the launch result (none is a failed
launch; the list is what LaunchInstances returned for n equal one), and
primary-IP resolution for each new instance id. -/
structure RRItemEnv where
  ipOld : Option String
  termOk : Bool
  created : Option (List InstanceInfo)
  ipNew : String → Option String

structure RREnv where
  items : Nat → RRItemEnv
  lbEnsure : Option String
  lbCount : Option Int

structure RRResult where
  res : Except ScaleErr Unit
  store : StoreRoot
  metrics : ActionsMetrics
  trace : List Ev

/-- Side-effect calls of one replacement instance: ledger append then the LB
backend add when the new primary IP resolves. -/
def rrInstEvs (lbOn : Bool) (ipNew : String → Option String) (inst : InstanceInfo) :
    List Ev :=
  if lbOn then
    match ipNew inst.id with
    | some ip => [Ev.appendRec inst.id, Ev.lbAddIp ip]
    | none => [Ev.appendRec inst.id]
  else [Ev.appendRec inst.id]

/-- The LB backend removal attempted before terminating a unit (only when LB
is on and the old primary IP resolves). -/
def rrEvs0 (lbOn : Bool) (ipOld : Option String) : List Ev :=
  if lbOn then
    match ipOld with
    | some ip => [Ev.lbRemoveIp ip]
    | none => []
  else []

/-- Per-new-instance tail of a rolling-restart step: ledger append, metrics,
optional LB add. -/
def rrLaunchFold (fleetName group : String) (now : Nat) (lbOn : Bool)
    (ipNew : String → Option String) :
    List InstanceInfo → StoreRoot → ActionsMetrics → StoreRoot × ActionsMetrics × List Ev
  | [], s, m => (s, m, [])
  | inst :: rest, s, m =>
    let s1 := addActiveRecord s fleetName group inst.id inst.displayName now
    let m1 := mIncLaunchSucceeded m
    let (s2, m2, tr) := rrLaunchFold fleetName group now lbOn ipNew rest s1 m1
    (s2, m2, rrInstEvs lbOn ipNew inst ++ tr)

/-- The body of the rolling-restart loop, one iteration per active record:
optional LB backend removal, terminate, ledger mark, launch one replacement
in the same group, ledger append, optional LB backend add.  The first
terminate or launch error aborts. -/
def rrLoop (cfg : FleetConfigM) (env : RREnv) (now : Nat) (total : Int) (lbOn : Bool) :
    Nat → List InstanceRecord → StoreRoot → ActionsMetrics → RRResult
  | _, [], s, m => ⟨Except.ok (), s, m, []⟩
  | i, q :: rest, s, m =>
    let fleetName := cfg.name
    let it := env.items i
    let m0 := mSetRollingRestart m ((i : Int) + 1) total
    let evs0 := rrEvs0 lbOn it.ipOld
    let m1 := mSetPhase m0 "terminate"
    if it.termOk = false then
      ⟨Except.error (ScaleErr.terminateFailed q.id), s,
        mIncTerminateFailed m1 ("terminate instance " ++ q.id), evs0 ++ [Ev.termCall q.id]⟩
    else
      let m2 := mIncTerminateSucceeded m1
      let s1 := markTerminatedByIDs s fleetName [q.id] now
      let m3 := mSetPhase m2 "launch"
      match it.created with
      | none =>
          ⟨Except.error (ScaleErr.launchFailed q.id), s1,
            mIncLaunchFailed m3 ("launch replacement for " ++ q.id),
            evs0 ++ [Ev.termCall q.id, Ev.markCall [q.id], Ev.launchCall q.group]⟩
      | some created =>
        let lf := rrLaunchFold fleetName q.group now lbOn it.ipNew created s1 m3
        let out := rrLoop cfg env now total lbOn (i + 1) rest lf.1 lf.2.1
        ⟨out.res, out.store, out.metrics,
          evs0 ++ [Ev.termCall q.id, Ev.markCall [q.id], Ev.launchCall q.group]
            ++ lf.2.2 ++ out.trace⟩

/-- Fleet.RollingRestart: zero active records is a successful no-op;
otherwise fetch the whole active set, prepare the LB if enabled (an ensure
failure disables LB awareness for the remainder), then run the serial loop
and finally publish the LB backend count. -/
def rollingRestartModel (cfg : FleetConfigM) (s : StoreRoot) (m : ActionsMetrics)
    (env : RREnv) (now : Nat) : RRResult :=
  let fleetName := cfg.name
  let current := countActive s fleetName
  if current = 0 then ⟨Except.ok (), s, m, []⟩
  else
    let recs := activeRecordsLIFO s fleetName (current : Int)
    let m1 := mSetRollingRestart (mReset m "rolling-restart") 0 (current : Int)
    let lbOn : Bool := cfg.lbEnabled && env.lbEnsure.isSome
    let out := rrLoop cfg env now (current : Int) lbOn 0 recs s m1
    match out.res with
    | Except.error e => ⟨Except.error e, out.store, out.metrics, out.trace⟩
    | Except.ok _ =>
      let m2 :=
        if lbOn then
          match env.lbEnsure, env.lbCount with
          | some lbID, some n => mUpdateLB out.metrics true lbID n
          | some lbID, none => mUpdateLB out.metrics true lbID 0
          | none, _ => out.metrics
        else out.metrics
      ⟨Except.ok (), out.store, mDone m2, out.trace⟩

/-- Event tail of one rolling-restart step over the returned created list. -/
def rrTail (lbOn : Bool) (ipNew : String → Option String) : List InstanceInfo → List Ev
  | [] => []
  | inst :: rest => rrInstEvs lbOn ipNew inst ++ rrTail lbOn ipNew rest

/-- Event trace of the rolling-restart loop as a function of the environment
alone (the loop emits the same calls whatever the store and metrics hold). -/
def rrTraceF (env : RREnv) (lbOn : Bool) : Nat → List InstanceRecord → List Ev
  | _, [] => []
  | i, q :: rest =>
    let it := env.items i
    let evs0 := rrEvs0 lbOn it.ipOld
    if it.termOk = false then evs0 ++ [Ev.termCall q.id]
    else
      match it.created with
      | none => evs0 ++ [Ev.termCall q.id, Ev.markCall [q.id], Ev.launchCall q.group]
      | some created =>
          evs0 ++ [Ev.termCall q.id, Ev.markCall [q.id], Ev.launchCall q.group]
            ++ rrTail lbOn it.ipNew created ++ rrTraceF env lbOn (i + 1) rest

/-- The full event block of one successful rolling-restart step: LB remove,
terminate, ledger mark, launch, then per-replacement append and LB add. -/
def rrBlock (lbOn : Bool) (it : RRItemEnv) (q : InstanceRecord) : List Ev :=
  rrEvs0 lbOn it.ipOld
    ++ [Ev.termCall q.id, Ev.markCall [q.id], Ev.launchCall q.group]
    ++ rrTail lbOn it.ipNew (it.created.getD [])

/-- Concatenation of the per-record blocks, in record order. -/
def rrBlocks (lbOn : Bool) (env : RREnv) : Nat → List InstanceRecord → List Ev
  | _, [] => []
  | i, q :: rest => rrBlock lbOn (env.items i) q ++ rrBlocks lbOn env (i + 1) rest

/-- Change an event makes to the number of terminated-but-not-yet-replaced
units: a terminate call opens a gap, a ledger append of the replacement
closes it. -/
def evDelta : Ev → Int
  | Ev.termCall _ => 1
  | Ev.appendRec _ => -1
  | _ => 0

/-- Number of terminated-but-not-yet-replaced units after a list of events. -/
def down : List Ev → Int
  | [] => 0
  | e :: rest => evDelta e + down rest

/-- Largest value of down over all prefixes of the list. -/
def dmax : List Ev → Int
  | [] => 0
  | e :: rest => max 0 (evDelta e + dmax rest)

/-! Control loop tick (startControlLoop in cmd/fleetctl/main.go, steps 2 to
3): compute the config total, raise it to the local active count, list
remote, and scale up only when the successful list is short of the target. -/

inductive ControlAction where
  | scaleUp (target : Int)
  | noop
  | listError
  | noClient
deriving DecidableEq, Repr

def desiredFromConfig (cfg : FleetConfigM) : Int :=
  cfg.instances.foldl (fun acc g => acc + g.count) 0

def controlTick (cfg : FleetConfigM) (store? : Option StoreRoot) (hasClient : Bool)
    (listResult : Option (List InstanceInfo)) : Int × ControlAction :=
  let desired := desiredFromConfig cfg
  let target := match store? with
    | some s => if (countActive s cfg.name : Int) > desired
                then (countActive s cfg.name : Int) else desired
    | none => desired
  match hasClient, listResult with
  | false, _ => (target, ControlAction.noClient)
  | true, none => (target, ControlAction.listError)
  | true, some l =>
      if (l.length : Int) < target then (target, ControlAction.scaleUp target)
      else (target, ControlAction.noop)

/-! POST /scale handler (startHTTPServer in cmd/fleetctl/main.go). -/

structure ScaleHandlerResult where
  status : Int
  metrics : ActionsMetrics
  spawned : Option Int
deriving DecidableEq, Repr

/-- The handler validates the method and body, appends the desired total to
the pending scale queue when it differs from the local active count, spawns
the asynchronous Scale task, and answers 202. -/
def scaleHandler (method : String) (body : Option Int) (localActive : Nat)
    (m : ActionsMetrics) : ScaleHandlerResult :=
  if method ≠ "POST" then ⟨405, m, none⟩
  else
    match body with
    | none => ⟨400, m, none⟩
    | some desired =>
      if desired < 0 then ⟨400, m, none⟩
      else
        let m1 := if desired ≠ (localActive : Int) then mAppendScaleQueue m desired else m
        ⟨202, m1, some desired⟩


/-! Predicates and concrete fixtures used by the verification below. -/

def isLaunchCall : Ev → Bool
  | Ev.launchCall _ => true
  | _ => false

def isTermCall : Ev → Bool
  | Ev.termCall _ => true
  | _ => false

/-- Number of active records strictly above index x (more recently appended
active records). -/
def activesAbove (insts : List InstanceRecord) (x : Nat) : Nat :=
  ((activeIdx insts).filter (fun j => decide (x < j))).length

def wCfg : FleetConfigM := ⟨"web", [⟨"web", 3⟩], "", false, 2, 10⟩

def wInst1 : InstanceInfo := ⟨"ocid1", "web-web-100-0"⟩

def wInst2 : InstanceInfo := ⟨"ocid2", "web-web-200-0"⟩

def wInst3 : InstanceInfo := ⟨"ocid3", "web-web-300-0"⟩

/-- A store with two active records for fleet web. -/
def wStore2 : StoreRoot :=
  addActiveRecord (addActiveRecord StoreRoot.empty "web" "web" "a" "na" 1)
    "web" "web" "b" "nb" 2

/-- Scale environment where the first collected launch result is a failure and
the second a success. -/
def wEnvC3 : ScaleEnv :=
  ⟨some [], [Except.error "boom", Except.ok wInst1, Except.error "boom"],
   fun _ => true, none, fun _ => none, none, fun _ => some 0, some []⟩

/-- Scale environment where the success is collected before the failure. -/
def wEnvC3b : ScaleEnv :=
  ⟨some [], [Except.ok wInst1, Except.error "boom"],
   fun _ => true, none, fun _ => none, none, fun _ => some 0, some []⟩

/-- Scale environment where remote and local both already equal the target. -/
def wEnvNoop : ScaleEnv :=
  ⟨some [wInst1, wInst2], [], fun _ => true, none, fun _ => none, none,
   fun _ => some 2, some [wInst1, wInst2]⟩

/-- Scale environment for a clean two-instance scale-up. -/
def wEnvUp : ScaleEnv :=
  ⟨some [], [Except.ok wInst1, Except.ok wInst2], fun _ => true, none,
   fun _ => none, none, fun _ => some 2, some [wInst1, wInst2]⟩

/-- Scale environment for a clean one-instance scale-down from two. -/
def wEnvDown : ScaleEnv :=
  ⟨some [wInst1, wInst2], [], fun _ => true, none, fun _ => none, none,
   fun _ => some 1, some [wInst1]⟩

/-- Scale environment whose verification polls never reach the target. -/
def wEnvC8 : ScaleEnv :=
  ⟨some [], [Except.ok wInst1], fun _ => true, none, fun _ => none, none,
   fun _ => some 2, some []⟩

/-- Rolling-restart environment where every step succeeds with one
replacement. -/
def wRREnv : RREnv :=
  ⟨fun _ => ⟨none, true, some [wInst3], fun _ => none⟩, none, none⟩


@[simp] theorem mReset_scaleQueue (m : ActionsMetrics) (op : String) :
    (mReset m op).scaleQueue = m.scaleQueue := rfl

@[simp] theorem mReset_launchRequested (m : ActionsMetrics) (op : String) :
    (mReset m op).launchRequested = 0 := rfl

@[simp] theorem mReset_launchSucceeded (m : ActionsMetrics) (op : String) :
    (mReset m op).launchSucceeded = 0 := rfl

@[simp] theorem mReset_launchFailed (m : ActionsMetrics) (op : String) :
    (mReset m op).launchFailed = 0 := rfl

@[simp] theorem mReset_terminateRequested (m : ActionsMetrics) (op : String) :
    (mReset m op).terminateRequested = 0 := rfl

@[simp] theorem mReset_terminateSucceeded (m : ActionsMetrics) (op : String) :
    (mReset m op).terminateSucceeded = 0 := rfl

@[simp] theorem mReset_terminateFailed (m : ActionsMetrics) (op : String) :
    (mReset m op).terminateFailed = 0 := rfl

@[simp] theorem mReset_lastError (m : ActionsMetrics) (op : String) :
    (mReset m op).lastError = "" := rfl

@[simp] theorem mDone_scaleQueue (m : ActionsMetrics) :
    (mDone m).scaleQueue = m.scaleQueue := rfl

@[simp] theorem mDone_launchRequested (m : ActionsMetrics) :
    (mDone m).launchRequested = m.launchRequested := rfl

@[simp] theorem mDone_launchSucceeded (m : ActionsMetrics) :
    (mDone m).launchSucceeded = m.launchSucceeded := rfl

@[simp] theorem mDone_launchFailed (m : ActionsMetrics) :
    (mDone m).launchFailed = m.launchFailed := rfl

@[simp] theorem mDone_terminateRequested (m : ActionsMetrics) :
    (mDone m).terminateRequested = m.terminateRequested := rfl

@[simp] theorem mDone_terminateSucceeded (m : ActionsMetrics) :
    (mDone m).terminateSucceeded = m.terminateSucceeded := rfl

@[simp] theorem mDone_terminateFailed (m : ActionsMetrics) :
    (mDone m).terminateFailed = m.terminateFailed := rfl

@[simp] theorem mDone_lastError (m : ActionsMetrics) :
    (mDone m).lastError = m.lastError := rfl

@[simp] theorem mSetPhase_scaleQueue (m : ActionsMetrics) (p : String) :
    (mSetPhase m p).scaleQueue = m.scaleQueue := rfl

@[simp] theorem mSetPhase_launchRequested (m : ActionsMetrics) (p : String) :
    (mSetPhase m p).launchRequested = m.launchRequested := rfl

@[simp] theorem mSetPhase_launchSucceeded (m : ActionsMetrics) (p : String) :
    (mSetPhase m p).launchSucceeded = m.launchSucceeded := rfl

@[simp] theorem mSetPhase_launchFailed (m : ActionsMetrics) (p : String) :
    (mSetPhase m p).launchFailed = m.launchFailed := rfl

@[simp] theorem mSetPhase_terminateRequested (m : ActionsMetrics) (p : String) :
    (mSetPhase m p).terminateRequested = m.terminateRequested := rfl

@[simp] theorem mSetPhase_terminateSucceeded (m : ActionsMetrics) (p : String) :
    (mSetPhase m p).terminateSucceeded = m.terminateSucceeded := rfl

@[simp] theorem mSetPhase_terminateFailed (m : ActionsMetrics) (p : String) :
    (mSetPhase m p).terminateFailed = m.terminateFailed := rfl

@[simp] theorem mSetPhase_lastError (m : ActionsMetrics) (p : String) :
    (mSetPhase m p).lastError = m.lastError := rfl

@[simp] theorem mSetError_scaleQueue (m : ActionsMetrics) (e : String) :
    (mSetError m e).scaleQueue = m.scaleQueue := rfl

@[simp] theorem mSetError_launchRequested (m : ActionsMetrics) (e : String) :
    (mSetError m e).launchRequested = m.launchRequested := rfl

@[simp] theorem mSetError_launchSucceeded (m : ActionsMetrics) (e : String) :
    (mSetError m e).launchSucceeded = m.launchSucceeded := rfl

@[simp] theorem mSetError_launchFailed (m : ActionsMetrics) (e : String) :
    (mSetError m e).launchFailed = m.launchFailed := rfl

@[simp] theorem mSetError_terminateRequested (m : ActionsMetrics) (e : String) :
    (mSetError m e).terminateRequested = m.terminateRequested := rfl

@[simp] theorem mSetError_terminateSucceeded (m : ActionsMetrics) (e : String) :
    (mSetError m e).terminateSucceeded = m.terminateSucceeded := rfl

@[simp] theorem mSetError_terminateFailed (m : ActionsMetrics) (e : String) :
    (mSetError m e).terminateFailed = m.terminateFailed := rfl

@[simp] theorem mSetError_lastError (m : ActionsMetrics) (e : String) :
    (mSetError m e).lastError = e := rfl

@[simp] theorem mSetScaleTargets_scaleQueue (m : ActionsMetrics) (a b : Int) :
    (mSetScaleTargets m a b).scaleQueue = m.scaleQueue := rfl

@[simp] theorem mSetScaleTargets_launchRequested (m : ActionsMetrics) (a b : Int) :
    (mSetScaleTargets m a b).launchRequested = m.launchRequested := rfl

@[simp] theorem mSetScaleTargets_launchSucceeded (m : ActionsMetrics) (a b : Int) :
    (mSetScaleTargets m a b).launchSucceeded = m.launchSucceeded := rfl

@[simp] theorem mSetScaleTargets_launchFailed (m : ActionsMetrics) (a b : Int) :
    (mSetScaleTargets m a b).launchFailed = m.launchFailed := rfl

@[simp] theorem mSetScaleTargets_terminateRequested (m : ActionsMetrics) (a b : Int) :
    (mSetScaleTargets m a b).terminateRequested = m.terminateRequested := rfl

@[simp] theorem mSetScaleTargets_terminateSucceeded (m : ActionsMetrics) (a b : Int) :
    (mSetScaleTargets m a b).terminateSucceeded = m.terminateSucceeded := rfl

@[simp] theorem mSetScaleTargets_terminateFailed (m : ActionsMetrics) (a b : Int) :
    (mSetScaleTargets m a b).terminateFailed = m.terminateFailed := rfl

@[simp] theorem mSetScaleTargets_lastError (m : ActionsMetrics) (a b : Int) :
    (mSetScaleTargets m a b).lastError = m.lastError := rfl

@[simp] theorem mIncLaunchRequested_scaleQueue (m : ActionsMetrics) (n : Int) :
    (mIncLaunchRequested m n).scaleQueue = m.scaleQueue := rfl

@[simp] theorem mIncLaunchRequested_launchRequested (m : ActionsMetrics) (n : Int) :
    (mIncLaunchRequested m n).launchRequested = if m.launchRequested + n < 0 then 0 else m.launchRequested + n := rfl

@[simp] theorem mIncLaunchRequested_launchSucceeded (m : ActionsMetrics) (n : Int) :
    (mIncLaunchRequested m n).launchSucceeded = m.launchSucceeded := rfl

@[simp] theorem mIncLaunchRequested_launchFailed (m : ActionsMetrics) (n : Int) :
    (mIncLaunchRequested m n).launchFailed = m.launchFailed := rfl

@[simp] theorem mIncLaunchRequested_terminateRequested (m : ActionsMetrics) (n : Int) :
    (mIncLaunchRequested m n).terminateRequested = m.terminateRequested := rfl

@[simp] theorem mIncLaunchRequested_terminateSucceeded (m : ActionsMetrics) (n : Int) :
    (mIncLaunchRequested m n).terminateSucceeded = m.terminateSucceeded := rfl

@[simp] theorem mIncLaunchRequested_terminateFailed (m : ActionsMetrics) (n : Int) :
    (mIncLaunchRequested m n).terminateFailed = m.terminateFailed := rfl

@[simp] theorem mIncLaunchRequested_lastError (m : ActionsMetrics) (n : Int) :
    (mIncLaunchRequested m n).lastError = m.lastError := rfl

@[simp] theorem mIncLaunchSucceeded_scaleQueue (m : ActionsMetrics) :
    (mIncLaunchSucceeded m).scaleQueue = m.scaleQueue := rfl

@[simp] theorem mIncLaunchSucceeded_launchRequested (m : ActionsMetrics) :
    (mIncLaunchSucceeded m).launchRequested = m.launchRequested := rfl

@[simp] theorem mIncLaunchSucceeded_launchSucceeded (m : ActionsMetrics) :
    (mIncLaunchSucceeded m).launchSucceeded = m.launchSucceeded + 1 := rfl

@[simp] theorem mIncLaunchSucceeded_launchFailed (m : ActionsMetrics) :
    (mIncLaunchSucceeded m).launchFailed = m.launchFailed := rfl

@[simp] theorem mIncLaunchSucceeded_terminateRequested (m : ActionsMetrics) :
    (mIncLaunchSucceeded m).terminateRequested = m.terminateRequested := rfl

@[simp] theorem mIncLaunchSucceeded_terminateSucceeded (m : ActionsMetrics) :
    (mIncLaunchSucceeded m).terminateSucceeded = m.terminateSucceeded := rfl

@[simp] theorem mIncLaunchSucceeded_terminateFailed (m : ActionsMetrics) :
    (mIncLaunchSucceeded m).terminateFailed = m.terminateFailed := rfl

@[simp] theorem mIncLaunchSucceeded_lastError (m : ActionsMetrics) :
    (mIncLaunchSucceeded m).lastError = m.lastError := rfl

@[simp] theorem mIncLaunchFailed_scaleQueue (m : ActionsMetrics) (e : String) :
    (mIncLaunchFailed m e).scaleQueue = m.scaleQueue := rfl

@[simp] theorem mIncLaunchFailed_launchRequested (m : ActionsMetrics) (e : String) :
    (mIncLaunchFailed m e).launchRequested = m.launchRequested := rfl

@[simp] theorem mIncLaunchFailed_launchSucceeded (m : ActionsMetrics) (e : String) :
    (mIncLaunchFailed m e).launchSucceeded = m.launchSucceeded := rfl

@[simp] theorem mIncLaunchFailed_launchFailed (m : ActionsMetrics) (e : String) :
    (mIncLaunchFailed m e).launchFailed = m.launchFailed + 1 := rfl

@[simp] theorem mIncLaunchFailed_terminateRequested (m : ActionsMetrics) (e : String) :
    (mIncLaunchFailed m e).terminateRequested = m.terminateRequested := rfl

@[simp] theorem mIncLaunchFailed_terminateSucceeded (m : ActionsMetrics) (e : String) :
    (mIncLaunchFailed m e).terminateSucceeded = m.terminateSucceeded := rfl

@[simp] theorem mIncLaunchFailed_terminateFailed (m : ActionsMetrics) (e : String) :
    (mIncLaunchFailed m e).terminateFailed = m.terminateFailed := rfl

@[simp] theorem mIncLaunchFailed_lastError (m : ActionsMetrics) (e : String) :
    (mIncLaunchFailed m e).lastError = if e = "" then m.lastError else e := rfl

@[simp] theorem mIncTerminateRequested_scaleQueue (m : ActionsMetrics) (n : Int) :
    (mIncTerminateRequested m n).scaleQueue = m.scaleQueue := rfl

@[simp] theorem mIncTerminateRequested_launchRequested (m : ActionsMetrics) (n : Int) :
    (mIncTerminateRequested m n).launchRequested = m.launchRequested := rfl

@[simp] theorem mIncTerminateRequested_launchSucceeded (m : ActionsMetrics) (n : Int) :
    (mIncTerminateRequested m n).launchSucceeded = m.launchSucceeded := rfl

@[simp] theorem mIncTerminateRequested_launchFailed (m : ActionsMetrics) (n : Int) :
    (mIncTerminateRequested m n).launchFailed = m.launchFailed := rfl

@[simp] theorem mIncTerminateRequested_terminateRequested (m : ActionsMetrics) (n : Int) :
    (mIncTerminateRequested m n).terminateRequested = if m.terminateRequested + n < 0 then 0 else m.terminateRequested + n := rfl

@[simp] theorem mIncTerminateRequested_terminateSucceeded (m : ActionsMetrics) (n : Int) :
    (mIncTerminateRequested m n).terminateSucceeded = m.terminateSucceeded := rfl

@[simp] theorem mIncTerminateRequested_terminateFailed (m : ActionsMetrics) (n : Int) :
    (mIncTerminateRequested m n).terminateFailed = m.terminateFailed := rfl

@[simp] theorem mIncTerminateRequested_lastError (m : ActionsMetrics) (n : Int) :
    (mIncTerminateRequested m n).lastError = m.lastError := rfl

@[simp] theorem mIncTerminateSucceeded_scaleQueue (m : ActionsMetrics) :
    (mIncTerminateSucceeded m).scaleQueue = m.scaleQueue := rfl

@[simp] theorem mIncTerminateSucceeded_launchRequested (m : ActionsMetrics) :
    (mIncTerminateSucceeded m).launchRequested = m.launchRequested := rfl

@[simp] theorem mIncTerminateSucceeded_launchSucceeded (m : ActionsMetrics) :
    (mIncTerminateSucceeded m).launchSucceeded = m.launchSucceeded := rfl

@[simp] theorem mIncTerminateSucceeded_launchFailed (m : ActionsMetrics) :
    (mIncTerminateSucceeded m).launchFailed = m.launchFailed := rfl

@[simp] theorem mIncTerminateSucceeded_terminateRequested (m : ActionsMetrics) :
    (mIncTerminateSucceeded m).terminateRequested = m.terminateRequested := rfl

@[simp] theorem mIncTerminateSucceeded_terminateSucceeded (m : ActionsMetrics) :
    (mIncTerminateSucceeded m).terminateSucceeded = m.terminateSucceeded + 1 := rfl

@[simp] theorem mIncTerminateSucceeded_terminateFailed (m : ActionsMetrics) :
    (mIncTerminateSucceeded m).terminateFailed = m.terminateFailed := rfl

@[simp] theorem mIncTerminateSucceeded_lastError (m : ActionsMetrics) :
    (mIncTerminateSucceeded m).lastError = m.lastError := rfl

@[simp] theorem mIncTerminateFailed_scaleQueue (m : ActionsMetrics) (e : String) :
    (mIncTerminateFailed m e).scaleQueue = m.scaleQueue := rfl

@[simp] theorem mIncTerminateFailed_launchRequested (m : ActionsMetrics) (e : String) :
    (mIncTerminateFailed m e).launchRequested = m.launchRequested := rfl

@[simp] theorem mIncTerminateFailed_launchSucceeded (m : ActionsMetrics) (e : String) :
    (mIncTerminateFailed m e).launchSucceeded = m.launchSucceeded := rfl

@[simp] theorem mIncTerminateFailed_launchFailed (m : ActionsMetrics) (e : String) :
    (mIncTerminateFailed m e).launchFailed = m.launchFailed := rfl

@[simp] theorem mIncTerminateFailed_terminateRequested (m : ActionsMetrics) (e : String) :
    (mIncTerminateFailed m e).terminateRequested = m.terminateRequested := rfl

@[simp] theorem mIncTerminateFailed_terminateSucceeded (m : ActionsMetrics) (e : String) :
    (mIncTerminateFailed m e).terminateSucceeded = m.terminateSucceeded := rfl

@[simp] theorem mIncTerminateFailed_terminateFailed (m : ActionsMetrics) (e : String) :
    (mIncTerminateFailed m e).terminateFailed = m.terminateFailed + 1 := rfl

@[simp] theorem mIncTerminateFailed_lastError (m : ActionsMetrics) (e : String) :
    (mIncTerminateFailed m e).lastError = if e = "" then m.lastError else e := rfl

@[simp] theorem mSetRollingRestart_scaleQueue (m : ActionsMetrics) (i t : Int) :
    (mSetRollingRestart m i t).scaleQueue = m.scaleQueue := rfl

@[simp] theorem mSetRollingRestart_launchRequested (m : ActionsMetrics) (i t : Int) :
    (mSetRollingRestart m i t).launchRequested = m.launchRequested := rfl

@[simp] theorem mSetRollingRestart_launchSucceeded (m : ActionsMetrics) (i t : Int) :
    (mSetRollingRestart m i t).launchSucceeded = m.launchSucceeded := rfl

@[simp] theorem mSetRollingRestart_launchFailed (m : ActionsMetrics) (i t : Int) :
    (mSetRollingRestart m i t).launchFailed = m.launchFailed := rfl

@[simp] theorem mSetRollingRestart_terminateRequested (m : ActionsMetrics) (i t : Int) :
    (mSetRollingRestart m i t).terminateRequested = m.terminateRequested := rfl

@[simp] theorem mSetRollingRestart_terminateSucceeded (m : ActionsMetrics) (i t : Int) :
    (mSetRollingRestart m i t).terminateSucceeded = m.terminateSucceeded := rfl

@[simp] theorem mSetRollingRestart_terminateFailed (m : ActionsMetrics) (i t : Int) :
    (mSetRollingRestart m i t).terminateFailed = m.terminateFailed := rfl

@[simp] theorem mSetRollingRestart_lastError (m : ActionsMetrics) (i t : Int) :
    (mSetRollingRestart m i t).lastError = m.lastError := rfl

@[simp] theorem mUpdateLB_scaleQueue (m : ActionsMetrics) (e : Bool) (id : String) (b : Int) :
    (mUpdateLB m e id b).scaleQueue = m.scaleQueue := rfl

@[simp] theorem mUpdateLB_launchRequested (m : ActionsMetrics) (e : Bool) (id : String) (b : Int) :
    (mUpdateLB m e id b).launchRequested = m.launchRequested := rfl

@[simp] theorem mUpdateLB_launchSucceeded (m : ActionsMetrics) (e : Bool) (id : String) (b : Int) :
    (mUpdateLB m e id b).launchSucceeded = m.launchSucceeded := rfl

@[simp] theorem mUpdateLB_launchFailed (m : ActionsMetrics) (e : Bool) (id : String) (b : Int) :
    (mUpdateLB m e id b).launchFailed = m.launchFailed := rfl

@[simp] theorem mUpdateLB_terminateRequested (m : ActionsMetrics) (e : Bool) (id : String) (b : Int) :
    (mUpdateLB m e id b).terminateRequested = m.terminateRequested := rfl

@[simp] theorem mUpdateLB_terminateSucceeded (m : ActionsMetrics) (e : Bool) (id : String) (b : Int) :
    (mUpdateLB m e id b).terminateSucceeded = m.terminateSucceeded := rfl

@[simp] theorem mUpdateLB_terminateFailed (m : ActionsMetrics) (e : Bool) (id : String) (b : Int) :
    (mUpdateLB m e id b).terminateFailed = m.terminateFailed := rfl

@[simp] theorem mUpdateLB_lastError (m : ActionsMetrics) (e : Bool) (id : String) (b : Int) :
    (mUpdateLB m e id b).lastError = m.lastError := rfl

@[simp] theorem mSetLBBackends_scaleQueue (m : ActionsMetrics) (n : Int) :
    (mSetLBBackends m n).scaleQueue = m.scaleQueue := rfl

@[simp] theorem mSetLBBackends_launchRequested (m : ActionsMetrics) (n : Int) :
    (mSetLBBackends m n).launchRequested = m.launchRequested := rfl

@[simp] theorem mSetLBBackends_launchSucceeded (m : ActionsMetrics) (n : Int) :
    (mSetLBBackends m n).launchSucceeded = m.launchSucceeded := rfl

@[simp] theorem mSetLBBackends_launchFailed (m : ActionsMetrics) (n : Int) :
    (mSetLBBackends m n).launchFailed = m.launchFailed := rfl

@[simp] theorem mSetLBBackends_terminateRequested (m : ActionsMetrics) (n : Int) :
    (mSetLBBackends m n).terminateRequested = m.terminateRequested := rfl

@[simp] theorem mSetLBBackends_terminateSucceeded (m : ActionsMetrics) (n : Int) :
    (mSetLBBackends m n).terminateSucceeded = m.terminateSucceeded := rfl

@[simp] theorem mSetLBBackends_terminateFailed (m : ActionsMetrics) (n : Int) :
    (mSetLBBackends m n).terminateFailed = m.terminateFailed := rfl

@[simp] theorem mSetLBBackends_lastError (m : ActionsMetrics) (n : Int) :
    (mSetLBBackends m n).lastError = m.lastError := rfl


@[simp] theorem processLaunch_scaleQueue (f g : String) (now : Nat) :
    ∀ (rs : List (Except String InstanceInfo)) (s : StoreRoot) (m : ActionsMetrics),
      (processLaunch f g now rs s m).metrics.scaleQueue = m.scaleQueue := by
  intro rs
  induction rs with
  | nil => intro s m; rfl
  | cons r rest ih =>
    intro s m
    cases r with
    | error e => simp [processLaunch]
    | ok inst => simp [processLaunch, ih]

@[simp] theorem termLoop_scaleQueue (t : Nat → Bool) :
    ∀ (ids : List String) (i : Nat) (m : ActionsMetrics),
      (termLoop t i ids m).metrics.scaleQueue = m.scaleQueue := by
  intro ids
  induction ids with
  | nil => intro i m; rfl
  | cons id rest ih =>
    intro i m
    simp only [termLoop, ih]
    split <;> simp

@[simp] theorem lbAddBlock_scaleQueue (env : ScaleEnv) (insts : List InstanceInfo)
    (m : ActionsMetrics) : (lbAddBlock env insts m).1.scaleQueue = m.scaleQueue := by
  unfold lbAddBlock
  cases env.lbEnsure with
  | none => rfl
  | some lbID => cases env.lbCount with
    | none => simp
    | some n => simp

@[simp] theorem lbRemoveBlock_scaleQueue (env : ScaleEnv) (ids : List String)
    (m : ActionsMetrics) : (lbRemoveBlock env ids m).1.scaleQueue = m.scaleQueue := by
  unfold lbRemoveBlock
  split
  · rfl
  · cases env.lbEnsure with
    | none => rfl
    | some lbID => cases env.lbCount with
      | none => simp
      | some n => simp

theorem scaleUpTail_scaleQueue (cfg : FleetConfigM) (env : ScaleEnv) (now : Nat)
    (d : Int) (launchEvs : List Ev) (out : PLOut) :
    (scaleUpTail cfg env now d launchEvs out).metrics.scaleQueue
      = out.metrics.scaleQueue := by
  unfold scaleUpTail
  cases hres : out.res with
  | error e => rfl
  | ok insts =>
    cases hv : verifyActualMatches d env.verifyPolls with
    | error e => by_cases hlb : cfg.lbEnabled <;> simp [hlb]
    | ok u =>
      cases hs : syncStateModel cfg out.store env.syncList now with
      | error e => by_cases hlb : cfg.lbEnabled <;> simp [hlb, hv, hs]
      | ok s2 => by_cases hlb : cfg.lbEnabled <;> simp [hlb, hv, hs]

theorem scaleDownTail_scaleQueue (cfg : FleetConfigM) (env : ScaleEnv) (now : Nat)
    (d : Int) (s : StoreRoot) (ids : List String) (lbEvs : List Ev) (out : TLOut) :
    (scaleDownTail cfg env now d s ids lbEvs out).metrics.scaleQueue
      = out.metrics.scaleQueue := by
  unfold scaleDownTail
  cases hres : out.firstErr with
  | some id => rfl
  | none =>
    cases hv : verifyActualMatches d env.verifyPolls with
    | error e => simp [hv]
    | ok u =>
      cases hs : syncStateModel cfg (markTerminatedByIDs s cfg.name ids now)
          env.syncList now with
      | error e => simp [hv, hs]
      | ok s2 => simp [hv, hs]

theorem scaleUpGo_scaleQueue (cfg : FleetConfigM) (s : StoreRoot) (m : ActionsMetrics)
    (env : ScaleEnv) (now : Nat) (d remote : Int) :
    (scaleUpGo cfg s m env now d remote).metrics.scaleQueue = m.scaleQueue := by
  unfold scaleUpGo
  rw [scaleUpTail_scaleQueue]
  simp

theorem scaleDownGo_scaleQueue (cfg : FleetConfigM) (s : StoreRoot) (m : ActionsMetrics)
    (env : ScaleEnv) (now : Nat) (d current remote : Int) :
    (scaleDownGo cfg s m env now d current remote).metrics.scaleQueue = m.scaleQueue := by
  unfold scaleDownGo
  rw [scaleDownTail_scaleQueue]
  by_cases hlb : cfg.lbEnabled <;> simp [hlb]

theorem scaleModel_scaleQueue (cfg : FleetConfigM) (s : StoreRoot) (m : ActionsMetrics)
    (env : ScaleEnv) (now : Nat) (d : Int) :
    (scaleModel cfg s m env now d).metrics.scaleQueue = m.scaleQueue := by
  cases hl : env.listResult with
  | none =>
    unfold scaleModel
    rw [hl]
    dsimp only
    split
    · rfl
    · split
      · rfl
      · split
        · exact scaleUpGo_scaleQueue cfg s m env now d _
        · exact scaleDownGo_scaleQueue cfg s m env now d _ _
  | some l =>
    unfold scaleModel
    rw [hl]
    dsimp only
    split
    · rfl
    · split
      · rfl
      · split
        · exact scaleUpGo_scaleQueue cfg s m env now d _
        · exact scaleDownGo_scaleQueue cfg s m env now d _ _

theorem scaleModel_up_eq (cfg : FleetConfigM) (s : StoreRoot) (m : ActionsMetrics)
    (env : ScaleEnv) (now : Nat) (d : Int) (l : List InstanceInfo)
    (hl : env.listResult = some l) (hup : (l.length : Int) < d) :
    scaleModel cfg s m env now d = scaleUpGo cfg s m env now d (l.length : Int) := by
  unfold scaleModel
  rw [hl]
  dsimp only
  rw [if_neg (by omega : ¬ d < 0)]
  rw [if_neg (by rintro ⟨h1, h2⟩; omega :
    ¬(d = (countActive s cfg.name : Int) ∧ d = (l.length : Int)))]
  rw [if_pos hup]

theorem scaleModel_down_eq (cfg : FleetConfigM) (s : StoreRoot) (m : ActionsMetrics)
    (env : ScaleEnv) (now : Nat) (d : Int) (l : List InstanceInfo)
    (hl : env.listResult = some l) (h0 : 0 ≤ d) (hle : d ≤ (l.length : Int))
    (hno : ¬(d = (countActive s cfg.name : Int) ∧ d = (l.length : Int))) :
    scaleModel cfg s m env now d
      = scaleDownGo cfg s m env now d (countActive s cfg.name : Int) (l.length : Int) := by
  unfold scaleModel
  rw [hl]
  dsimp only
  rw [if_neg (by omega : ¬ d < 0), if_neg hno, if_neg (by omega : ¬ (l.length : Int) < d)]

theorem activeRecordsLIFO_length (r : StoreRoot) (f : String) (k : Int) :
    (activeRecordsLIFO r f k).length = min k.toNat (countActive r f) := by
  unfold activeRecordsLIFO countActive
  rw [List.length_take, List.length_reverse]

theorem countP_replicate (p : Ev → Bool) (a : Ev) (n : Nat) :
    (List.replicate n a).countP p = if p a then n else 0 := by
  induction n with
  | zero => simp
  | succ n ih =>
    rw [List.replicate_succ, List.countP_cons]
    split <;> simp_all

theorem processLaunch_trace_mem (f g : String) (now : Nat) :
    ∀ (rs : List (Except String InstanceInfo)) (s : StoreRoot) (m : ActionsMetrics),
      ∀ e ∈ (processLaunch f g now rs s m).trace, ∃ id, e = Ev.appendRec id := by
  intro rs
  induction rs with
  | nil => intro s m e he; simp [processLaunch] at he
  | cons r rest ih =>
    intro s m e he
    cases r with
    | error err => simp [processLaunch] at he
    | ok inst =>
      simp only [processLaunch, List.mem_cons] at he
      rcases he with rfl | he
      · exact ⟨inst.id, rfl⟩
      · exact ih _ _ e he

theorem termLoop_trace_countP_term (t : Nat → Bool) :
    ∀ (ids : List String) (i : Nat) (m : ActionsMetrics),
      (termLoop t i ids m).trace.countP isTermCall = ids.length := by
  intro ids
  induction ids with
  | nil => intro i m; rfl
  | cons id rest ih =>
    intro i m
    simp only [termLoop, List.countP_cons]
    rw [ih]
    simp [isTermCall]

theorem termLoop_trace_countP_launch (t : Nat → Bool) :
    ∀ (ids : List String) (i : Nat) (m : ActionsMetrics),
      (termLoop t i ids m).trace.countP isLaunchCall = 0 := by
  intro ids
  induction ids with
  | nil => intro i m; rfl
  | cons id rest ih =>
    intro i m
    simp only [termLoop, List.countP_cons]
    rw [ih]
    simp [isLaunchCall]

theorem lbAddEvs_mem (env : ScaleEnv) :
    ∀ (insts : List InstanceInfo), ∀ e ∈ lbAddEvs env insts, ∃ ip, e = Ev.lbAddIp ip := by
  intro insts
  induction insts with
  | nil => intro e he; simp [lbAddEvs] at he
  | cons inst rest ih =>
    intro e he
    unfold lbAddEvs at he
    dsimp only [List.foldr] at he
    revert he
    cases env.ipOf inst.id with
    | none => intro he; exact ih e he
    | some ip =>
      intro he
      rcases List.mem_cons.mp he with rfl | he2
      · exact ⟨ip, rfl⟩
      · exact ih e he2

theorem lbRemoveEvs_mem (env : ScaleEnv) :
    ∀ (ids : List String), ∀ e ∈ lbRemoveEvs env ids, ∃ ip, e = Ev.lbRemoveIp ip := by
  intro ids
  induction ids with
  | nil => intro e he; simp [lbRemoveEvs] at he
  | cons id rest ih =>
    intro e he
    unfold lbRemoveEvs at he
    dsimp only [List.foldr] at he
    revert he
    cases env.ipOf id with
    | none => intro he; exact ih e he
    | some ip =>
      intro he
      rcases List.mem_cons.mp he with rfl | he2
      · exact ⟨ip, rfl⟩
      · exact ih e he2



theorem lbAddBlock_countP_zero (env : ScaleEnv) (insts : List InstanceInfo)
    (m : ActionsMetrics) (p : Ev → Bool) (h : ∀ ip, p (Ev.lbAddIp ip) = false) :
    ((lbAddBlock env insts m).2).countP p = 0 := by
  rw [List.countP_eq_zero]
  intro a ha
  have hmem : a ∈ lbAddEvs env insts := by
    revert ha
    unfold lbAddBlock
    cases env.lbEnsure with
    | none => intro ha; simp at ha
    | some lbID => cases env.lbCount <;> exact fun ha => ha
  obtain ⟨ip, rfl⟩ := lbAddEvs_mem env insts a hmem
  simp [h ip]

theorem lbRemoveBlock_countP_zero (env : ScaleEnv) (ids : List String)
    (m : ActionsMetrics) (p : Ev → Bool) (h : ∀ ip, p (Ev.lbRemoveIp ip) = false) :
    ((lbRemoveBlock env ids m).2).countP p = 0 := by
  rw [List.countP_eq_zero]
  intro a ha
  have hmem : a ∈ lbRemoveEvs env ids := by
    revert ha
    unfold lbRemoveBlock
    split
    · intro ha; simp at ha
    · cases env.lbEnsure with
      | none => intro ha; simp at ha
      | some lbID => cases env.lbCount <;> exact fun ha => ha
  obtain ⟨ip, rfl⟩ := lbRemoveEvs_mem env ids a hmem
  simp [h ip]

theorem processLaunch_countP_zero (f g : String) (now : Nat)
    (rs : List (Except String InstanceInfo)) (s : StoreRoot) (m : ActionsMetrics)
    (p : Ev → Bool) (h : ∀ id, p (Ev.appendRec id) = false) :
    ((processLaunch f g now rs s m).trace).countP p = 0 := by
  rw [List.countP_eq_zero]
  intro a ha
  obtain ⟨id, rfl⟩ := processLaunch_trace_mem f g now rs s m a ha
  simp [h id]

theorem scaleUpTail_countP (cfg : FleetConfigM) (env : ScaleEnv) (now : Nat)
    (d : Int) (launchEvs : List Ev) (out : PLOut) (p : Ev → Bool)
    (hp1 : out.trace.countP p = 0) (hp2 : ∀ ip, p (Ev.lbAddIp ip) = false) :
    (scaleUpTail cfg env now d launchEvs out).trace.countP p = launchEvs.countP p := by
  unfold scaleUpTail
  cases hres : out.res with
  | error e => simp [List.countP_append, hp1]
  | ok insts =>
    have hlb : (if cfg.lbEnabled then (lbAddBlock env insts out.metrics).2 else []).countP p
        = 0 := by
      split
      · exact lbAddBlock_countP_zero env insts out.metrics p hp2
      · rfl
    cases hv : verifyActualMatches d env.verifyPolls with
    | error e => simp [List.countP_append, hp1, hlb]
    | ok u =>
      cases hs : syncStateModel cfg out.store env.syncList now with
      | error e => simp [hv, hs, List.countP_append, hp1, hlb]
      | ok s2 => simp [hv, hs, List.countP_append, hp1, hlb]

theorem scaleDownTail_countP (cfg : FleetConfigM) (env : ScaleEnv) (now : Nat)
    (d : Int) (s : StoreRoot) (ids : List String) (lbEvs : List Ev) (out : TLOut)
    (p : Ev → Bool) (hmark : p (Ev.markCall ids) = false) :
    (scaleDownTail cfg env now d s ids lbEvs out).trace.countP p
      = lbEvs.countP p + out.trace.countP p := by
  unfold scaleDownTail
  cases hres : out.firstErr with
  | some id => simp [List.countP_append]
  | none =>
    cases hv : verifyActualMatches d env.verifyPolls with
    | error e => simp [hv, List.countP_append, List.countP_cons, hmark]
    | ok u =>
      cases hs : syncStateModel cfg (markTerminatedByIDs s cfg.name ids now)
          env.syncList now with
      | error e => simp [hv, hs, List.countP_append, List.countP_cons, hmark]
      | ok s2 => simp [hv, hs, List.countP_append, List.countP_cons, hmark]

theorem processLaunch_launchRequested (f g : String) (now : Nat) :
    ∀ (rs : List (Except String InstanceInfo)) (s : StoreRoot) (m : ActionsMetrics),
      (processLaunch f g now rs s m).metrics.launchRequested = m.launchRequested := by
  intro rs
  induction rs with
  | nil => intro s m; rfl
  | cons r rest ih =>
    intro s m
    cases r with
    | error e => simp [processLaunch]
    | ok inst => simp [processLaunch, ih]

theorem termLoop_terminateRequested (t : Nat → Bool) :
    ∀ (ids : List String) (i : Nat) (m : ActionsMetrics),
      (termLoop t i ids m).metrics.terminateRequested = m.terminateRequested := by
  intro ids
  induction ids with
  | nil => intro i m; rfl
  | cons id rest ih =>
    intro i m
    simp only [termLoop, ih]
    split <;> simp

theorem lbAddBlock_launchRequested (env : ScaleEnv) (insts : List InstanceInfo)
    (m : ActionsMetrics) : (lbAddBlock env insts m).1.launchRequested
      = m.launchRequested := by
  unfold lbAddBlock
  cases env.lbEnsure with
  | none => rfl
  | some lbID => cases env.lbCount with
    | none => simp
    | some n => simp

theorem scaleUpTail_launchRequested (cfg : FleetConfigM) (env : ScaleEnv) (now : Nat)
    (d : Int) (launchEvs : List Ev) (out : PLOut) :
    (scaleUpTail cfg env now d launchEvs out).metrics.launchRequested
      = out.metrics.launchRequested := by
  unfold scaleUpTail
  cases hres : out.res with
  | error e => rfl
  | ok insts =>
    have hlb : (if cfg.lbEnabled then (lbAddBlock env insts out.metrics).1
        else out.metrics).launchRequested = out.metrics.launchRequested := by
      split
      · exact lbAddBlock_launchRequested env insts out.metrics
      · rfl
    cases hv : verifyActualMatches d env.verifyPolls with
    | error e => simp [hv, hlb]
    | ok u =>
      cases hs : syncStateModel cfg out.store env.syncList now with
      | error e => simp [hv, hs, hlb]
      | ok s2 => simp [hv, hs, hlb]

theorem lbRemoveBlock_terminateRequested (env : ScaleEnv) (ids : List String)
    (m : ActionsMetrics) : (lbRemoveBlock env ids m).1.terminateRequested
      = m.terminateRequested := by
  unfold lbRemoveBlock
  split
  · rfl
  · cases env.lbEnsure with
    | none => rfl
    | some lbID => cases env.lbCount with
      | none => simp
      | some n => simp

theorem scaleDownTail_terminateRequested (cfg : FleetConfigM) (env : ScaleEnv)
    (now : Nat) (d : Int) (s : StoreRoot) (ids : List String) (lbEvs : List Ev)
    (out : TLOut) :
    (scaleDownTail cfg env now d s ids lbEvs out).metrics.terminateRequested
      = out.metrics.terminateRequested := by
  unfold scaleDownTail
  cases hres : out.firstErr with
  | some id => rfl
  | none =>
    cases hv : verifyActualMatches d env.verifyPolls with
    | error e => simp [hv]
    | ok u =>
      cases hs : syncStateModel cfg (markTerminatedByIDs s cfg.name ids now)
          env.syncList now with
      | error e => simp [hv, hs]
      | ok s2 => simp [hv, hs]



theorem scaleUpGo_launchRequested (cfg : FleetConfigM) (s : StoreRoot)
    (m : ActionsMetrics) (env : ScaleEnv) (now : Nat) (d remote : Int) :
    (scaleUpGo cfg s m env now d remote).metrics.launchRequested
      = (((d - remote).toNat : Nat) : Int) := by
  unfold scaleUpGo
  rw [scaleUpTail_launchRequested, processLaunch_launchRequested]
  simp only [mIncLaunchRequested_launchRequested, mSetPhase_launchRequested,
    mSetScaleTargets_launchRequested, mReset_launchRequested]
  split <;> omega

theorem scaleUpGo_trace_launchCalls (cfg : FleetConfigM) (s : StoreRoot)
    (m : ActionsMetrics) (env : ScaleEnv) (now : Nat) (d remote : Int) :
    (scaleUpGo cfg s m env now d remote).trace.countP isLaunchCall
      = (d - remote).toNat := by
  unfold scaleUpGo
  rw [scaleUpTail_countP _ _ _ _ _ _ _
    (processLaunch_countP_zero _ _ _ _ _ _ _ (fun id => rfl)) (fun ip => rfl)]
  rw [countP_replicate]
  rfl

theorem scaleDownGo_terminateRequested (cfg : FleetConfigM) (s : StoreRoot)
    (m : ActionsMetrics) (env : ScaleEnv) (now : Nat) (d current remote : Int) :
    (scaleDownGo cfg s m env now d current remote).metrics.terminateRequested
      = ((min (current - d).toNat (countActive s cfg.name) : Nat) : Int) := by
  unfold scaleDownGo
  rw [scaleDownTail_terminateRequested, termLoop_terminateRequested]
  simp only [mIncTerminateRequested_terminateRequested, mSetPhase_terminateRequested,
    mSetScaleTargets_terminateRequested, mReset_terminateRequested,
    List.length_map, activeRecordsLIFO_length]
  split <;> omega

theorem scaleDownGo_trace_termCalls (cfg : FleetConfigM) (s : StoreRoot)
    (m : ActionsMetrics) (env : ScaleEnv) (now : Nat) (d current remote : Int) :
    (scaleDownGo cfg s m env now d current remote).trace.countP isTermCall
      = min (current - d).toNat (countActive s cfg.name) := by
  unfold scaleDownGo
  rw [scaleDownTail_countP _ _ _ _ _ _ _ _ _ rfl]
  rw [termLoop_trace_countP_term]
  have hlb : (if cfg.lbEnabled
      then (lbRemoveBlock env
        ((activeRecordsLIFO s cfg.name (current - d)).map (fun q => q.id)) m).2
      else []).countP isTermCall = 0 := by
    split
    · exact lbRemoveBlock_countP_zero env _ m isTermCall (fun ip => rfl)
    · rfl
  rw [hlb, List.length_map, activeRecordsLIFO_length]
  omega

/-- C5: Scale computes its deltas asymmetrically.  When the remote
tag-filtered list is shorter than desired, the launch count (launchRequested
and the number of launch calls in the trace) is desired minus the remote
length; when desired is at most the remote length but below the local active
count, the termination count (terminateRequested and the number of terminate
calls) is the ledger active count minus desired. -/
theorem scale_delta_asymmetry (cfg : FleetConfigM) (s : StoreRoot) (m : ActionsMetrics)
    (env : ScaleEnv) (now : Nat) (d : Int) (l : List InstanceInfo)
    (hl : env.listResult = some l) :
    ((l.length : Int) < d →
      (scaleModel cfg s m env now d).metrics.launchRequested = d - (l.length : Int)
      ∧ (scaleModel cfg s m env now d).trace.countP isLaunchCall
          = (d - (l.length : Int)).toNat)
    ∧ (0 ≤ d → d ≤ (l.length : Int) → d < (countActive s cfg.name : Int) →
      (scaleModel cfg s m env now d).metrics.terminateRequested
          = (countActive s cfg.name : Int) - d
      ∧ (scaleModel cfg s m env now d).trace.countP isTermCall
          = ((countActive s cfg.name : Int) - d).toNat) := by
  constructor
  · intro hup
    rw [scaleModel_up_eq cfg s m env now d l hl hup]
    refine ⟨?_, ?_⟩
    · rw [scaleUpGo_launchRequested]
      omega
    · rw [scaleUpGo_trace_launchCalls]
  · intro h0 hle hcur
    rw [scaleModel_down_eq cfg s m env now d l hl h0 hle
      (by rintro ⟨h1, h2⟩; omega)]
    refine ⟨?_, ?_⟩
    · rw [scaleDownGo_terminateRequested]
      omega
    · rw [scaleDownGo_trace_termCalls]
      omega



theorem getFleet_setFleet (r : StoreRoot) (f : String) (fs : FleetState) :
    getFleet (setFleet r f fs) f = fs := by
  simp [getFleet, setFleet]

theorem getFleet_setFleet_ne (r : StoreRoot) (f g : String) (fs : FleetState)
    (h : g ≠ f) : getFleet (setFleet r f fs) g = getFleet r g := by
  simp [getFleet, setFleet, h]

theorem scaleModel_neg_eq (cfg : FleetConfigM) (s : StoreRoot) (m : ActionsMetrics)
    (env : ScaleEnv) (now : Nat) (d : Int) (hneg : d < 0) :
    scaleModel cfg s m env now d = ⟨Except.error ScaleErr.negativeDesired, s, m, []⟩ := by
  unfold scaleModel
  rw [if_pos hneg]

theorem scaleModel_noop_eq (cfg : FleetConfigM) (s : StoreRoot) (m : ActionsMetrics)
    (env : ScaleEnv) (now : Nat) (d : Int) (l : List InstanceInfo)
    (hl : env.listResult = some l) (h1 : d = (countActive s cfg.name : Int))
    (h2 : d = (l.length : Int)) :
    scaleModel cfg s m env now d = ⟨Except.ok (), s, m, []⟩ := by
  unfold scaleModel
  rw [hl]
  dsimp only
  rw [if_neg (by omega : ¬ d < 0), if_pos ⟨h1, h2⟩]

theorem scaleModel_noop_none_eq (cfg : FleetConfigM) (s : StoreRoot) (m : ActionsMetrics)
    (env : ScaleEnv) (now : Nat) (d : Int)
    (hl : env.listResult = none) (h1 : d = (countActive s cfg.name : Int)) :
    scaleModel cfg s m env now d = ⟨Except.ok (), s, m, []⟩ := by
  unfold scaleModel
  rw [hl]
  dsimp only
  rw [if_neg (by omega : ¬ d < 0), if_pos ⟨h1, h1⟩]

theorem scaleModel_up_none_eq (cfg : FleetConfigM) (s : StoreRoot) (m : ActionsMetrics)
    (env : ScaleEnv) (now : Nat) (d : Int)
    (hl : env.listResult = none) (hup : (countActive s cfg.name : Int) < d) :
    scaleModel cfg s m env now d
      = scaleUpGo cfg s m env now d (countActive s cfg.name : Int) := by
  unfold scaleModel
  rw [hl]
  dsimp only
  rw [if_neg (by omega : ¬ d < 0), if_neg (by rintro ⟨h1, h2⟩; omega :
    ¬(d = (countActive s cfg.name : Int) ∧ d = (countActive s cfg.name : Int))),
    if_pos hup]

theorem scaleModel_down_none_eq (cfg : FleetConfigM) (s : StoreRoot) (m : ActionsMetrics)
    (env : ScaleEnv) (now : Nat) (d : Int)
    (hl : env.listResult = none) (h0 : 0 ≤ d)
    (hne : d ≠ (countActive s cfg.name : Int)) (hle : d ≤ (countActive s cfg.name : Int)) :
    scaleModel cfg s m env now d
      = scaleDownGo cfg s m env now d (countActive s cfg.name : Int)
          (countActive s cfg.name : Int) := by
  unfold scaleModel
  rw [hl]
  dsimp only
  rw [if_neg (by omega : ¬ d < 0), if_neg (by rintro ⟨h1, h2⟩; omega :
    ¬(d = (countActive s cfg.name : Int) ∧ d = (countActive s cfg.name : Int))),
    if_neg (by omega : ¬ (countActive s cfg.name : Int) < d)]

theorem countActive_reset_sync (cfg : FleetConfigM) (s : StoreRoot)
    (ls : List InstanceInfo) (now : Nat) :
    countActive (resetFleetActive s cfg.name (syncRecords cfg ls now) now) cfg.name
      = ls.length := by
  unfold countActive resetFleetActive
  rw [getFleet_setFleet]
  have hfe : (syncRecords cfg ls now).filter (fun i => decide (i.status = Status.active))
      = syncRecords cfg ls now := by
    rw [List.filter_eq_self]
    intro a ha
    unfold syncRecords at ha
    obtain ⟨it, -, rfl⟩ := List.mem_map.mp ha
    simp
  rw [hfe]
  unfold syncRecords
  rw [List.length_map]

theorem syncStateModel_ok (cfg : FleetConfigM) (s : StoreRoot)
    (lr : Option (List InstanceInfo)) (now : Nat) (s2 : StoreRoot)
    (h : syncStateModel cfg s lr now = Except.ok s2) :
    ∃ ls, lr = some ls ∧ s2 = resetFleetActive s cfg.name (syncRecords cfg ls now) now := by
  cases lr with
  | none => simp [syncStateModel] at h
  | some ls =>
    refine ⟨ls, rfl, ?_⟩
    simp [syncStateModel] at h
    exact h.symm

theorem scaleUpTail_success_count (cfg : FleetConfigM) (env : ScaleEnv) (now : Nat)
    (d : Int) (evs : List Ev) (out : PLOut)
    (hok : (scaleUpTail cfg env now d evs out).res = Except.ok ())
    (hsync : ∀ ls, env.syncList = some ls → (ls.length : Int) = d) :
    (countActive (scaleUpTail cfg env now d evs out).store cfg.name : Int) = d := by
  unfold scaleUpTail at hok ⊢
  revert hok
  cases hres : out.res with
  | error e => intro hok; simp at hok
  | ok insts =>
    intro hok
    dsimp only at hok ⊢
    revert hok
    cases hv : verifyActualMatches d env.verifyPolls with
    | error e => intro hok; simp at hok
    | ok u =>
      intro hok
      revert hok
      cases hs : syncStateModel cfg out.store env.syncList now with
      | error e => intro hok; simp at hok
      | ok s2 =>
        intro hok
        obtain ⟨ls, hls, rfl⟩ := syncStateModel_ok cfg out.store env.syncList now s2 hs
        dsimp only
        rw [countActive_reset_sync]
        exact hsync ls hls

theorem scaleDownTail_success_count (cfg : FleetConfigM) (env : ScaleEnv) (now : Nat)
    (d : Int) (s : StoreRoot) (ids : List String) (lbEvs : List Ev) (out : TLOut)
    (hok : (scaleDownTail cfg env now d s ids lbEvs out).res = Except.ok ())
    (hsync : ∀ ls, env.syncList = some ls → (ls.length : Int) = d) :
    (countActive (scaleDownTail cfg env now d s ids lbEvs out).store cfg.name : Int)
      = d := by
  unfold scaleDownTail at hok ⊢
  revert hok
  cases hres : out.firstErr with
  | some id => intro hok; simp at hok
  | none =>
    intro hok
    dsimp only at hok ⊢
    revert hok
    cases hv : verifyActualMatches d env.verifyPolls with
    | error e => intro hok; simp at hok
    | ok u =>
      intro hok
      revert hok
      cases hs : syncStateModel cfg (markTerminatedByIDs s cfg.name ids now)
          env.syncList now with
      | error e => intro hok; simp at hok
      | ok s2 =>
        intro hok
        obtain ⟨ls, hls, rfl⟩ :=
          syncStateModel_ok cfg (markTerminatedByIDs s cfg.name ids now)
            env.syncList now s2 hs
        dsimp only
        rw [countActive_reset_sync]
        exact hsync ls hls

theorem scaleModel_success_count (cfg : FleetConfigM) (s : StoreRoot)
    (m : ActionsMetrics) (env : ScaleEnv) (now : Nat) (d : Int)
    (hok : (scaleModel cfg s m env now d).res = Except.ok ())
    (hsync : ∀ ls, env.syncList = some ls → (ls.length : Int) = d) :
    (countActive (scaleModel cfg s m env now d).store cfg.name : Int) = d := by
  by_cases hneg : d < 0
  · rw [scaleModel_neg_eq cfg s m env now d hneg] at hok
    simp at hok
  · cases hl : env.listResult with
    | some l =>
      by_cases hno : d = (countActive s cfg.name : Int) ∧ d = (l.length : Int)
      · rw [scaleModel_noop_eq cfg s m env now d l hl hno.1 hno.2]
        exact hno.1.symm
      · by_cases hup : (l.length : Int) < d
        · rw [scaleModel_up_eq cfg s m env now d l hl hup] at hok ⊢
          unfold scaleUpGo at hok ⊢
          exact scaleUpTail_success_count cfg env now d _ _ hok hsync
        · rw [scaleModel_down_eq cfg s m env now d l hl (by omega) (by omega) hno]
            at hok ⊢
          unfold scaleDownGo at hok ⊢
          exact scaleDownTail_success_count cfg env now d s _ _ _ hok hsync
    | none =>
      by_cases hcur : d = (countActive s cfg.name : Int)
      · rw [scaleModel_noop_none_eq cfg s m env now d hl hcur]
        exact hcur.symm
      · by_cases hup : (countActive s cfg.name : Int) < d
        · rw [scaleModel_up_none_eq cfg s m env now d hl hup] at hok ⊢
          unfold scaleUpGo at hok ⊢
          exact scaleUpTail_success_count cfg env now d _ _ hok hsync
        · rw [scaleModel_down_none_eq cfg s m env now d hl (by omega) hcur (by omega)]
            at hok ⊢
          unfold scaleDownGo at hok ⊢
          exact scaleDownTail_success_count cfg env now d s _ _ _ hok hsync

/-- C7: when desired equals both the ledger active count and the remote
list length, Scale is a no-op returning success with no side-effect calls;
consequently, after a successful Scale(d) whose verification implies the
synced ledger holds d records, a second Scale(d) against a remote showing d
instances is a no-op. -/
theorem scale_noop_and_second_call_noop (cfg : FleetConfigM) (s : StoreRoot)
    (m m2 : ActionsMetrics) (env env2 : ScaleEnv) (now now2 : Nat) (d : Int)
    (l l2 : List InstanceInfo) :
    (env.listResult = some l → (l.length : Int) = d →
      (countActive s cfg.name : Int) = d →
      scaleModel cfg s m env now d = ⟨Except.ok (), s, m, []⟩)
    ∧ ((scaleModel cfg s m env now d).res = Except.ok () →
      (∀ ls, env.syncList = some ls → (ls.length : Int) = d) →
      env2.listResult = some l2 → (l2.length : Int) = d →
      scaleModel cfg (scaleModel cfg s m env now d).store m2 env2 now2 d
        = ⟨Except.ok (), (scaleModel cfg s m env now d).store, m2, []⟩) := by
  constructor
  · intro hl hlen hcur
    exact scaleModel_noop_eq cfg s m env now d l hl hcur.symm hlen.symm
  · intro hok hsync hl2 hl2len
    have hpost := scaleModel_success_count cfg s m env now d hok hsync
    exact scaleModel_noop_eq cfg _ m2 env2 now2 d l2 hl2 hpost.symm hl2len.symm



theorem verifyLoop_timeout (d : Int) (p : Nat → Option Nat)
    (hall : ∀ j, ∃ a, p j = some a ∧ (a : Int) ≠ d) :
    ∀ (b i c : Nat), p (i + b) = some c →
      verifyLoop d p b i = Except.error (ScaleErr.verifyTimeout (c : Int) d) := by
  intro b
  induction b with
  | zero =>
    intro i c hc
    rw [Nat.add_zero] at hc
    obtain ⟨a, ha, hne⟩ := hall i
    rw [ha] at hc
    injection hc with hc
    subst hc
    unfold verifyLoop
    rw [ha]
    dsimp only
    rw [if_neg hne]
  | succ b ih =>
    intro i c hc
    obtain ⟨a, ha, hne⟩ := hall i
    unfold verifyLoop
    rw [ha]
    dsimp only
    rw [if_neg hne]
    apply ih (i + 1) c
    have harith : i + 1 + b = i + (b + 1) := by omega
    rw [harith]
    exact hc

theorem verifyLoop_success (d : Int) (p : Nat → Option Nat) :
    ∀ (b i k cd : Nat), k ≤ b →
      (∀ j, j < k → ∃ a, p (i + j) = some a ∧ (a : Int) ≠ d) →
      p (i + k) = some cd → (cd : Int) = d →
      verifyLoop d p b i = Except.ok () := by
  intro b
  induction b with
  | zero =>
    intro i k cd hk hbefore hcd hde
    have hk0 : k = 0 := by omega
    subst hk0
    rw [Nat.add_zero] at hcd
    unfold verifyLoop
    rw [hcd]
    dsimp only
    rw [if_pos hde]
  | succ b ih =>
    intro i k cd hk hbefore hcd hde
    cases k with
    | zero =>
      rw [Nat.add_zero] at hcd
      unfold verifyLoop
      rw [hcd]
      dsimp only
      rw [if_pos hde]
    | succ k =>
      obtain ⟨a, ha, hne⟩ := hbefore 0 (Nat.succ_pos k)
      rw [Nat.add_zero] at ha
      unfold verifyLoop
      rw [ha]
      dsimp only
      rw [if_neg hne]
      apply ih (i + 1) k cd (by omega)
      · intro j hj
        obtain ⟨a2, ha2, hne2⟩ := hbefore (j + 1) (by omega)
        refine ⟨a2, ?_, hne2⟩
        have harith : i + 1 + j = i + (j + 1) := by omega
        rw [harith]
        exact ha2
      · have harith : i + 1 + k = i + (k + 1) := by omega
        rw [harith]
        exact hcd
      · exact hde

theorem processLaunch_all_ok (f g : String) (now : Nat) :
    ∀ (rs : List (Except String InstanceInfo)) (s : StoreRoot) (m : ActionsMetrics),
      (∀ r ∈ rs, ∃ inst, r = Except.ok inst) →
      ∃ insts, (processLaunch f g now rs s m).res = Except.ok insts := by
  intro rs
  induction rs with
  | nil => intro s m h; exact ⟨[], rfl⟩
  | cons r rest ih =>
    intro s m h
    obtain ⟨inst, rfl⟩ := h r (List.mem_cons_self r rest)
    obtain ⟨insts, hres⟩ :=
      ih (addActiveRecord s f g inst.id inst.displayName now) (mIncLaunchSucceeded m)
        (fun r2 hr2 => h r2 (List.mem_cons_of_mem _ hr2))
    refine ⟨inst :: insts, ?_⟩
    simp only [processLaunch, hres]
    rfl

theorem scaleUpGo_verify_error (cfg : FleetConfigM) (s : StoreRoot) (m : ActionsMetrics)
    (env : ScaleEnv) (now : Nat) (d remote : Int) (e : ScaleErr)
    (hv : verifyActualMatches d env.verifyPolls = Except.error e)
    (hla : ∀ r ∈ env.launchResults.take (d - remote).toNat, ∃ inst, r = Except.ok inst) :
    (scaleUpGo cfg s m env now d remote).res = Except.error e
    ∧ (scaleUpGo cfg s m env now d remote).metrics.lastError = e.msg := by
  unfold scaleUpGo scaleUpTail
  obtain ⟨insts, hres⟩ := processLaunch_all_ok cfg.name (defaultGroup cfg) now
    (env.launchResults.take (d - remote).toNat) s
    (mIncLaunchRequested
      (mSetPhase (mSetScaleTargets (mReset m "scale-up") remote d) "launch")
      (((d - remote).toNat : Nat) : Int)) hla
  dsimp only
  rw [hres]
  dsimp only
  rw [hv]
  exact ⟨rfl, by simp⟩



/-- C8: verification polls the tag-filtered list at 2-second intervals:
if every poll up to the 2-minute deadline (poll 61 at 122 seconds) differs
from desired, verifyActualMatches returns a verify-timeout error; if some
poll within the deadline matches, it returns success; and in a scale-up
whose launches all succeed, a never-matching poll sequence makes Scale
return the verify-timeout error and record its message in
metrics.lastError. -/
theorem scale_verify_two_minute_timeout
    (d : Int) (p1 p2 : Nat → Option Nat) (c c2 i0 : Nat)
    (cfg : FleetConfigM) (s : StoreRoot) (m : ActionsMetrics) (env : ScaleEnv)
    (now : Nat) (l : List InstanceInfo) :
    ((∀ j, ∃ a, p1 j = some a ∧ (a : Int) ≠ d) → p1 61 = some c →
      verifyActualMatches d p1 = Except.error (ScaleErr.verifyTimeout (c : Int) d))
    ∧ (i0 ≤ 61 → (∀ j, j < i0 → ∃ a, p2 j = some a ∧ (a : Int) ≠ d) →
      p2 i0 = some c2 → (c2 : Int) = d →
      verifyActualMatches d p2 = Except.ok ())
    ∧ (env.listResult = some l → (l.length : Int) < d →
      (∀ r ∈ env.launchResults.take (d - (l.length : Int)).toNat,
        ∃ inst, r = Except.ok inst) →
      (∀ j, ∃ a, env.verifyPolls j = some a ∧ (a : Int) ≠ d) →
      env.verifyPolls 61 = some c →
      (scaleModel cfg s m env now d).res
          = Except.error (ScaleErr.verifyTimeout (c : Int) d)
      ∧ (scaleModel cfg s m env now d).metrics.lastError
          = (ScaleErr.verifyTimeout (c : Int) d).msg) := by
  refine ⟨?_, ?_, ?_⟩
  · intro hall h61
    unfold verifyActualMatches verifyBudget
    exact verifyLoop_timeout d p1 hall 61 0 c (by simpa using h61)
  · intro h0 hbefore hc2 hde
    unfold verifyActualMatches verifyBudget
    exact verifyLoop_success d p2 61 0 i0 c2 h0
      (fun j hj => by simpa using hbefore j hj) (by simpa using hc2) hde
  · intro hl hup hla hall h61
    rw [scaleModel_up_eq cfg s m env now d l hl hup]
    have hv : verifyActualMatches d env.verifyPolls
        = Except.error (ScaleErr.verifyTimeout (c : Int) d) := by
      unfold verifyActualMatches verifyBudget
      exact verifyLoop_timeout d env.verifyPolls hall 61 0 c (by simpa using h61)
    exact scaleUpGo_verify_error cfg s m env now d (l.length : Int) _ hv hla



theorem countActive_addActiveRecord (r : StoreRoot) (f g id name : String) (now : Nat) :
    countActive (addActiveRecord r f g id name now) f = countActive r f + 1 := by
  unfold countActive addActiveRecord
  rw [getFleet_setFleet]
  dsimp only
  rw [List.filter_append]
  simp

theorem processLaunch_first_failure (f g : String) (now : Nat) :
    ∀ (oks : List InstanceInfo) (e : String) (rest : List (Except String InstanceInfo))
      (s : StoreRoot) (m : ActionsMetrics),
      (processLaunch f g now (oks.map Except.ok ++ Except.error e :: rest) s m).res
          = Except.error (ScaleErr.launchFailed e)
      ∧ countActive (processLaunch f g now
            (oks.map Except.ok ++ Except.error e :: rest) s m).store f
          = countActive s f + oks.length
      ∧ (processLaunch f g now
            (oks.map Except.ok ++ Except.error e :: rest) s m).metrics.launchSucceeded
          = m.launchSucceeded + oks.length
      ∧ (processLaunch f g now
            (oks.map Except.ok ++ Except.error e :: rest) s m).metrics.launchFailed
          = m.launchFailed + 1 := by
  intro oks
  induction oks with
  | nil =>
    intro e rest s m
    refine ⟨rfl, rfl, by simp [processLaunch], by simp [processLaunch]⟩
  | cons i oks ih =>
    intro e rest s m
    obtain ⟨h1, h2, h3, h4⟩ := ih e rest
      (addActiveRecord s f g i.id i.displayName now) (mIncLaunchSucceeded m)
    have hred : processLaunch f g now
        ((i :: oks).map Except.ok ++ Except.error e :: rest) s m
        = ⟨((processLaunch f g now (oks.map Except.ok ++ Except.error e :: rest)
              (addActiveRecord s f g i.id i.displayName now)
              (mIncLaunchSucceeded m)).res).map (fun l2 => i :: l2),
           (processLaunch f g now (oks.map Except.ok ++ Except.error e :: rest)
              (addActiveRecord s f g i.id i.displayName now)
              (mIncLaunchSucceeded m)).store,
           (processLaunch f g now (oks.map Except.ok ++ Except.error e :: rest)
              (addActiveRecord s f g i.id i.displayName now)
              (mIncLaunchSucceeded m)).metrics,
           Ev.appendRec i.id :: (processLaunch f g now
              (oks.map Except.ok ++ Except.error e :: rest)
              (addActiveRecord s f g i.id i.displayName now)
              (mIncLaunchSucceeded m)).trace⟩ := rfl
    rw [hred]
    refine ⟨?_, ?_, ?_, ?_⟩
    · dsimp only
      rw [h1]
      rfl
    · dsimp only
      rw [h2, countActive_addActiveRecord]
      simp [List.length_cons]
      omega
    · dsimp only
      rw [h3]
      simp
      omega
    · dsimp only
      rw [h4]
      simp



theorem scale_up_first_failure_amended (cfg : FleetConfigM) (s : StoreRoot)
    (m : ActionsMetrics) (env : ScaleEnv) (now : Nat) (d : Int)
    (l oks : List InstanceInfo) (e : String) (rest : List (Except String InstanceInfo))
    (hl : env.listResult = some l) (hup : (l.length : Int) < d)
    (hres : env.launchResults.take (d - (l.length : Int)).toNat
        = oks.map Except.ok ++ Except.error e :: rest) :
    (scaleModel cfg s m env now d).res = Except.error (ScaleErr.launchFailed e)
    ∧ countActive (scaleModel cfg s m env now d).store cfg.name
        = countActive s cfg.name + oks.length
    ∧ (scaleModel cfg s m env now d).metrics.launchSucceeded = (oks.length : Int)
    ∧ (scaleModel cfg s m env now d).metrics.launchFailed = 1
    ∧ (scaleModel cfg s m env now d).trace.countP isTermCall = 0 := by
  rw [scaleModel_up_eq cfg s m env now d l hl hup]
  unfold scaleUpGo scaleUpTail
  dsimp only
  rw [hres]
  obtain ⟨h1, h2, h3, h4⟩ := processLaunch_first_failure cfg.name (defaultGroup cfg) now
    oks e rest s
    (mIncLaunchRequested
      (mSetPhase (mSetScaleTargets (mReset m "scale-up") (l.length : Int) d) "launch")
      (((d - (l.length : Int)).toNat : Nat) : Int))
  rw [h1]
  dsimp only
  refine ⟨rfl, ?_, ?_, ?_, ?_⟩
  · rw [h2]
  · rw [h3]
    simp
  · rw [h4]
    simp
  · rw [List.countP_append]
    rw [countP_replicate]
    rw [processLaunch_countP_zero cfg.name (defaultGroup cfg) now _ _ _ isTermCall
      (fun id => rfl)]
    rfl



theorem dmax_nonneg : ∀ L : List Ev, 0 ≤ dmax L := by
  intro L
  cases L with
  | nil => exact le_refl 0
  | cons e rest => exact le_max_left 0 _

theorem down_le_dmax : ∀ L : List Ev, down L ≤ dmax L := by
  intro L
  induction L with
  | nil => exact le_refl 0
  | cons e rest ih =>
    have h : evDelta e + down rest ≤ evDelta e + dmax rest := by omega
    calc down (e :: rest) = evDelta e + down rest := rfl
      _ ≤ evDelta e + dmax rest := h
      _ ≤ max 0 (evDelta e + dmax rest) := le_max_right _ _

theorem down_prefix_le_dmax : ∀ (L p q : List Ev), L = p ++ q → down p ≤ dmax L := by
  intro L
  induction L with
  | nil =>
    intro p q h
    have hp : p = [] := by
      cases p with
      | nil => rfl
      | cons x xs => simp at h
    subst hp
    exact le_refl 0
  | cons e rest ih =>
    intro p q h
    cases p with
    | nil =>
      exact dmax_nonneg (e :: rest)
    | cons x p2 =>
      rw [List.cons_append] at h
      injection h with h1 h2
      subst h1
      have := ih p2 q h2
      calc down (e :: p2) = evDelta e + down p2 := rfl
        _ ≤ evDelta e + dmax rest := by omega
        _ ≤ max 0 (evDelta e + dmax rest) := le_max_right _ _

theorem down_append : ∀ A B : List Ev, down (A ++ B) = down A + down B := by
  intro A B
  induction A with
  | nil => simp [down]
  | cons e rest ih =>
    rw [List.cons_append]
    simp only [down]
    rw [ih]
    omega

theorem dmax_append_le : ∀ A B : List Ev,
    dmax (A ++ B) ≤ max (dmax A) (down A + dmax B) := by
  intro A B
  induction A with
  | nil =>
    simp only [List.nil_append, down, dmax]
    have := dmax_nonneg B
    omega
  | cons e rest ih =>
    rw [List.cons_append]
    simp only [dmax, down]
    have h := ih
    omega

theorem rrEvs0_down (lbOn : Bool) (ip : Option String) : down (rrEvs0 lbOn ip) = 0 := by
  cases lbOn with
  | false => rfl
  | true => cases ip <;> rfl

theorem rrEvs0_dmax (lbOn : Bool) (ip : Option String) : dmax (rrEvs0 lbOn ip) = 0 := by
  cases lbOn with
  | false => rfl
  | true =>
    cases ip with
    | none => rfl
    | some v => simp [rrEvs0, dmax, evDelta]

theorem rrInstEvs_down (lbOn : Bool) (f : String → Option String) (x : InstanceInfo) :
    down (rrInstEvs lbOn f x) = -1 := by
  cases lbOn with
  | false => rfl
  | true =>
    unfold rrInstEvs
    cases f x.id with
    | none => rfl
    | some ip => simp [down, evDelta]

theorem rrInstEvs_dmax (lbOn : Bool) (f : String → Option String) (x : InstanceInfo) :
    dmax (rrInstEvs lbOn f x) = 0 := by
  cases lbOn with
  | false => simp [rrInstEvs, dmax, evDelta]
  | true =>
    unfold rrInstEvs
    cases f x.id with
    | none => simp [dmax, evDelta]
    | some ip => simp [dmax, evDelta]

theorem rrTail_single_down (lbOn : Bool) (f : String → Option String) (x : InstanceInfo) :
    down (rrTail lbOn f [x]) = -1 := by
  simp only [rrTail, List.append_nil]
  rw [rrInstEvs_down]

theorem rrTail_single_dmax (lbOn : Bool) (f : String → Option String) (x : InstanceInfo) :
    dmax (rrTail lbOn f [x]) ≤ 0 := by
  simp only [rrTail, List.append_nil]
  rw [rrInstEvs_dmax]

theorem rrLaunchFold_trace (f g : String) (now : Nat) (lbOn : Bool)
    (ipNew : String → Option String) :
    ∀ (insts : List InstanceInfo) (s : StoreRoot) (m : ActionsMetrics),
      (rrLaunchFold f g now lbOn ipNew insts s m).2.2 = rrTail lbOn ipNew insts := by
  intro insts
  induction insts with
  | nil => intro s m; rfl
  | cons inst rest ih =>
    intro s m
    simp only [rrLaunchFold, rrTail, ih]



theorem rrLoop_trace_eq (cfg : FleetConfigM) (env : RREnv) (now : Nat) (total : Int)
    (lbOn : Bool) :
    ∀ (recs : List InstanceRecord) (i : Nat) (s : StoreRoot) (m : ActionsMetrics),
      (rrLoop cfg env now total lbOn i recs s m).trace = rrTraceF env lbOn i recs := by
  intro recs
  induction recs with
  | nil => intro i s m; rfl
  | cons q rest ih =>
    intro i s m
    unfold rrLoop rrTraceF
    dsimp only
    by_cases htk : (env.items i).termOk = false
    · rw [if_pos htk, if_pos htk]
    · rw [if_neg htk, if_neg htk]
      cases hcr : (env.items i).created with
      | none => rfl
      | some created =>
        dsimp only
        rw [rrLaunchFold_trace, ih]

theorem rrTraceF_dmax_le (env : RREnv) (lbOn : Bool)
    (hsing : ∀ j l2, (env.items j).created = some l2 → l2.length = 1) :
    ∀ (recs : List InstanceRecord) (i : Nat),
      dmax (rrTraceF env lbOn i recs) ≤ 1 := by
  intro recs
  induction recs with
  | nil => intro i; simp [rrTraceF, dmax]
  | cons q rest ih =>
    intro i
    unfold rrTraceF
    dsimp only
    by_cases htk : (env.items i).termOk = false
    · rw [if_pos htk]
      have h := dmax_append_le (rrEvs0 lbOn (env.items i).ipOld) [Ev.termCall q.id]
      rw [rrEvs0_dmax, rrEvs0_down] at h
      have h2 : dmax [Ev.termCall q.id] = 1 := by simp [dmax, evDelta]
      omega
    · rw [if_neg htk]
      cases hcr : (env.items i).created with
      | none =>
        dsimp only
        have h := dmax_append_le (rrEvs0 lbOn (env.items i).ipOld)
          [Ev.termCall q.id, Ev.markCall [q.id], Ev.launchCall q.group]
        rw [rrEvs0_dmax, rrEvs0_down] at h
        have h2 : dmax [Ev.termCall q.id, Ev.markCall [q.id], Ev.launchCall q.group]
            = 1 := by simp [dmax, evDelta]
        omega
      | some created =>
        obtain ⟨x, rfl⟩ := List.length_eq_one.mp (hsing i created hcr)
        dsimp only
        rw [List.append_assoc, List.append_assoc]
        have h1 := dmax_append_le (rrEvs0 lbOn (env.items i).ipOld)
          ([Ev.termCall q.id, Ev.markCall [q.id], Ev.launchCall q.group]
            ++ (rrTail lbOn (env.items i).ipNew [x] ++ rrTraceF env lbOn (i + 1) rest))
        rw [rrEvs0_dmax, rrEvs0_down] at h1
        have h2 := dmax_append_le
          [Ev.termCall q.id, Ev.markCall [q.id], Ev.launchCall q.group]
          (rrTail lbOn (env.items i).ipNew [x] ++ rrTraceF env lbOn (i + 1) rest)
        have h3 := dmax_append_le (rrTail lbOn (env.items i).ipNew [x])
          (rrTraceF env lbOn (i + 1) rest)
        have h4 := rrTail_single_dmax lbOn (env.items i).ipNew x
        have h5 := rrTail_single_down lbOn (env.items i).ipNew x
        have h6 : dmax [Ev.termCall q.id, Ev.markCall [q.id], Ev.launchCall q.group]
            = 1 := by simp [dmax, evDelta]
        have h7 : down [Ev.termCall q.id, Ev.markCall [q.id], Ev.launchCall q.group]
            = 1 := by simp [down, evDelta]
        have h8 := ih (i + 1)
        have h9 := dmax_nonneg (rrTraceF env lbOn (i + 1) rest)
        omega

theorem rrLoop_ok_trace (cfg : FleetConfigM) (env : RREnv) (now : Nat) (total : Int)
    (lbOn : Bool) :
    ∀ (recs : List InstanceRecord) (i : Nat) (s : StoreRoot) (m : ActionsMetrics),
      (rrLoop cfg env now total lbOn i recs s m).res = Except.ok () →
      (rrLoop cfg env now total lbOn i recs s m).trace = rrBlocks lbOn env i recs := by
  intro recs
  induction recs with
  | nil => intro i s m h; rfl
  | cons q rest ih =>
    intro i s m h
    unfold rrLoop at h ⊢
    dsimp only at h ⊢
    revert h
    by_cases htk : (env.items i).termOk = false
    · rw [if_pos htk]
      intro h
      simp at h
    · rw [if_neg htk]
      cases hcr : (env.items i).created with
      | none => intro h; simp at h
      | some created =>
        intro h
        dsimp only at h ⊢
        rw [rrLaunchFold_trace]
        rw [ih _ _ _ h]
        simp only [rrBlocks, rrBlock, hcr, Option.getD_some]



theorem rollingRestartModel_trace_nz (cfg : FleetConfigM) (s : StoreRoot)
    (m : ActionsMetrics) (env : RREnv) (now : Nat)
    (hz : ¬ countActive s cfg.name = 0) :
    (rollingRestartModel cfg s m env now).trace
      = rrTraceF env (cfg.lbEnabled && env.lbEnsure.isSome) 0
          (activeRecordsLIFO s cfg.name (countActive s cfg.name : Int)) := by
  unfold rollingRestartModel
  rw [if_neg hz]
  dsimp only
  cases hres : (rrLoop cfg env now (countActive s cfg.name : Int)
      (cfg.lbEnabled && env.lbEnsure.isSome) 0
      (activeRecordsLIFO s cfg.name (countActive s cfg.name : Int)) s
      (mSetRollingRestart (mReset m "rolling-restart") 0
        (countActive s cfg.name : Int))).res with
  | error e =>
    dsimp only
    exact rrLoop_trace_eq cfg env now _ _ _ 0 _ _
  | ok u =>
    dsimp only
    exact rrLoop_trace_eq cfg env now _ _ _ 0 _ _

/-- C6: a successful RollingRestart processes the active records strictly
serially, its trace being exactly the concatenation of per-record blocks
LB-remove, terminate, ledger mark, launch, ledger append, LB-add in that
order; and when each step launches exactly one replacement, every prefix of
the trace has at most one instance terminated but not yet relaunched. -/
theorem rolling_restart_serial_order (cfg : FleetConfigM) (s : StoreRoot)
    (m : ActionsMetrics) (env : RREnv) (now : Nat)
    (hsing : ∀ j l2, (env.items j).created = some l2 → l2.length = 1) :
    ((rollingRestartModel cfg s m env now).res = Except.ok () →
      (rollingRestartModel cfg s m env now).trace
        = rrBlocks (cfg.lbEnabled && env.lbEnsure.isSome) env 0
            (activeRecordsLIFO s cfg.name (countActive s cfg.name : Int)))
    ∧ (∀ p q2, (rollingRestartModel cfg s m env now).trace = p ++ q2 → down p ≤ 1) := by
  constructor
  · intro hok
    by_cases hz : countActive s cfg.name = 0
    · have htr : (rollingRestartModel cfg s m env now).trace = [] := by
        unfold rollingRestartModel
        rw [if_pos hz]
      rw [htr, hz]
      rfl
    · unfold rollingRestartModel at hok ⊢
      rw [if_neg hz] at hok ⊢
      dsimp only at hok ⊢
      revert hok
      cases hres : (rrLoop cfg env now (countActive s cfg.name : Int)
          (cfg.lbEnabled && env.lbEnsure.isSome) 0
          (activeRecordsLIFO s cfg.name (countActive s cfg.name : Int)) s
          (mSetRollingRestart (mReset m "rolling-restart") 0
            (countActive s cfg.name : Int))).res with
      | error e => intro hok; simp at hok
      | ok u =>
        intro hok
        dsimp only
        exact rrLoop_ok_trace cfg env now _ _ _ 0 _ _ (by rw [hres])
  · intro p q2 hp
    by_cases hz : countActive s cfg.name = 0
    · have htr : (rollingRestartModel cfg s m env now).trace = [] := by
        unfold rollingRestartModel
        rw [if_pos hz]
      rw [htr] at hp
      have hpn : p = [] := by
        cases p with
        | nil => rfl
        | cons x xs => simp at hp
      subst hpn
      simp [down]
    · rw [rollingRestartModel_trace_nz cfg s m env now hz] at hp
      have h1 := down_prefix_le_dmax _ p q2 hp
      have h2 := rrTraceF_dmax_le env (cfg.lbEnabled && env.lbEnsure.isSome) hsing
        (activeRecordsLIFO s cfg.name (countActive s cfg.name : Int)) 0
      omega


theorem activeIdx_sorted (l : List InstanceRecord) : (activeIdx l).Pairwise (· < ·) :=
  (List.pairwise_lt_range l.length).filter _

theorem mem_activeIdx (l : List InstanceRecord) (i : Nat) :
    i ∈ activeIdx l ↔ i < l.length ∧ (l.getD i InstanceRecord.zero).status = Status.active := by
  simp [activeIdx, List.mem_filter, List.mem_range]

theorem mem_take_desc (p : List Nat) (hp : p.Pairwise (fun a b => b < a)) :
    ∀ (k x : Nat), x ∈ p.take k ↔ x ∈ p ∧ ((p.filter (fun y => decide (x < y))).length < k) := by
  induction p with
  | nil => intro k x; simp
  | cons a q ih =>
    intro k x
    have ha : ∀ b ∈ q, b < a := fun b hb => (List.pairwise_cons.mp hp).1 b hb
    have hq : q.Pairwise (fun a b => b < a) := (List.pairwise_cons.mp hp).2
    cases k with
    | zero => simp
    | succ k =>
      by_cases hxa : x = a
      · subst hxa
        have hfq : q.filter (fun y => decide (x < y)) = [] := by
          rw [List.filter_eq_nil_iff]
          intro b hb
          simp only [decide_eq_true_eq]
          exact not_lt.mpr (le_of_lt (ha b hb))
        simp [List.filter, hfq]
      · have hmem : x ∈ a :: q ↔ x ∈ q := by
          simp [List.mem_cons, hxa]
        by_cases hxq : x ∈ q
        · have hxlta : x < a := ha x hxq
          have : (a :: q).filter (fun y => decide (x < y))
              = a :: q.filter (fun y => decide (x < y)) := by
            simp [List.filter, hxlta]
          rw [List.take, List.mem_cons]
          rw [this]
          simp only [List.length_cons, hmem]
          constructor
          · rintro (h | h)
            · exact absurd h hxa
            · have := (ih hq k x).mp h
              exact ⟨hxq, by omega⟩
          · rintro ⟨-, hlen⟩
            exact Or.inr ((ih hq k x).mpr ⟨hxq, by omega⟩)
        · rw [List.take, List.mem_cons]
          constructor
          · rintro (h | h)
            · exact absurd h hxa
            · exact absurd ((ih hq k x).mp h).1 hxq
          · rintro ⟨hx, -⟩
            exact absurd (hmem.mp hx) hxq
  
theorem mem_reverse_take (l : List Nat) (hl : l.Pairwise (· < ·)) (k x : Nat) :
    x ∈ l.reverse.take k
      ↔ x ∈ l ∧ ((l.filter (fun y => decide (x < y))).length < k) := by
  have hp : l.reverse.Pairwise (fun a b => b < a) := by
    rw [List.pairwise_reverse]
    exact hl
  rw [mem_take_desc l.reverse hp k x, List.mem_reverse]
  have : l.reverse.filter (fun y => decide (x < y)) = (l.filter (fun y => decide (x < y))).reverse := by
    rw [List.filter_reverse]
  rw [this, List.length_reverse]



theorem activeIdx_length (l : List InstanceRecord) :
    (activeIdx l).length = (l.filter (fun q => decide (q.status = Status.active))).length := by
  induction l using List.reverseRecOn with
  | nil => rfl
  | append_singleton l a ih =>
    unfold activeIdx
    rw [List.length_append, List.length_singleton, List.range_succ, List.filter_append,
      List.filter_append, List.length_append, List.length_append]
    have h1 : (List.range l.length).filter
        (fun i => decide (((l ++ [a]).getD i InstanceRecord.zero).status = Status.active))
        = (List.range l.length).filter
          (fun i => decide ((l.getD i InstanceRecord.zero).status = Status.active)) := by
      apply List.filter_congr
      intro i hi
      rw [List.mem_range] at hi
      rw [List.getD_append _ _ _ _ hi]
    have h2 : ([l.length].filter
        (fun i => decide (((l ++ [a]).getD i InstanceRecord.zero).status = Status.active))).length
        = ([a].filter (fun q => decide (q.status = Status.active))).length := by
      have hg : (l ++ [a]).getD l.length InstanceRecord.zero = a := by
        rw [List.getD_append_right _ _ _ _ (le_refl _)]
        simp
      simp only [List.filter, hg]
      by_cases h : a.status = Status.active <;> simp [h]
    rw [h1, h2]
    have ihx := ih
    unfold activeIdx at ihx
    omega

theorem markFrom_length (now : Nat) (sel : List Nat) :
    ∀ (b : Nat) (l : List InstanceRecord), (markFrom now sel b l).length = l.length := by
  intro b l
  induction l generalizing b with
  | nil => rfl
  | cons q rest ih => simp [markFrom, ih]

theorem markFrom_getD (now : Nat) (sel : List Nat) :
    ∀ (l : List InstanceRecord) (b i : Nat), i < l.length →
      (markFrom now sel b l).getD i InstanceRecord.zero
        = (if (b + i) ∈ sel
           then { l.getD i InstanceRecord.zero with
                    status := Status.terminated, updatedAt := now }
           else l.getD i InstanceRecord.zero) := by
  intro l
  induction l with
  | nil => intro b i h; simp at h
  | cons q rest ih =>
    intro b i h
    cases i with
    | zero => simp [markFrom]
    | succ i =>
      have hi : i < rest.length := by simpa using h
      have := ih (b + 1) i hi
      simp only [markFrom, List.getD_cons_succ, this]
      have harith : b + 1 + i = b + (i + 1) := by omega
      rw [harith]



theorem countActive_eq_activeIdx_length (r : StoreRoot) (f : String) :
    countActive r f = (activeIdx (getFleet r f).instances).length :=
  (activeIdx_length (getFleet r f).instances).symm

/-- C9: RemoveActiveInstances with n at most 0 returns (0, r) and leaves
the store untouched; with n positive it returns min(n, active count), marks
exactly the most recently appended active records (those with fewer than n
active records above them) as Terminated with updatedAt = now, changes no
other record, preserves the fleet name and record count, sets the fleet
updatedAt, and leaves every other fleet unchanged. -/
theorem removeActiveInstances_spec (r : StoreRoot) (f : String) (n : Int) (now : Nat) :
    (n ≤ 0 → removeActiveInstances r f n now = (0, r))
    ∧ (0 < n →
        (removeActiveInstances r f n now).1 = min n ((countActive r f : Int))
        ∧ (getFleet (removeActiveInstances r f n now).2 f).updatedAt = now
        ∧ (getFleet (removeActiveInstances r f n now).2 f).fleetName
            = (getFleet r f).fleetName
        ∧ (getFleet (removeActiveInstances r f n now).2 f).instances.length
            = (getFleet r f).instances.length
        ∧ (∀ i, i < (getFleet r f).instances.length →
            (((getFleet r f).instances.getD i InstanceRecord.zero).status = Status.active
                ∧ ((activesAbove (getFleet r f).instances i : Int) < n)
              → (getFleet (removeActiveInstances r f n now).2 f).instances.getD i
                    InstanceRecord.zero
                  = { (getFleet r f).instances.getD i InstanceRecord.zero with
                        status := Status.terminated, updatedAt := now })
            ∧ (¬(((getFleet r f).instances.getD i InstanceRecord.zero).status = Status.active
                  ∧ ((activesAbove (getFleet r f).instances i : Int) < n))
              → (getFleet (removeActiveInstances r f n now).2 f).instances.getD i
                    InstanceRecord.zero
                  = (getFleet r f).instances.getD i InstanceRecord.zero))
        ∧ (∀ g, g ≠ f →
            getFleet (removeActiveInstances r f n now).2 g = getFleet r g)) := by
  constructor
  · intro hn
    rw [removeActiveInstances, if_pos hn]
  · intro hn
    have hnle : ¬ n ≤ 0 := by omega
    have hre : removeActiveInstances r f n now
        = ((((activeIdx (getFleet r f).instances).reverse.take n.toNat).length : Int),
           setFleet r f
             { getFleet r f with
                 instances := markFrom now
                   ((activeIdx (getFleet r f).instances).reverse.take n.toNat) 0
                   (getFleet r f).instances
                 updatedAt := now }) := by
      rw [removeActiveInstances, if_neg hnle]
    have hmem : ∀ i : Nat,
        i ∈ (activeIdx (getFleet r f).instances).reverse.take n.toNat
          ↔ i ∈ activeIdx (getFleet r f).instances
            ∧ activesAbove (getFleet r f).instances i < n.toNat := by
      intro i
      exact mem_reverse_take _ (activeIdx_sorted _) n.toNat i
    rw [hre]
    refine ⟨?_, ?_, ?_, ?_, ?_, ?_⟩
    · have h1 : ((activeIdx (getFleet r f).instances).reverse.take n.toNat).length
          = min n.toNat (activeIdx (getFleet r f).instances).length := by
        rw [List.length_take, List.length_reverse]
      have h2 := countActive_eq_activeIdx_length r f
      dsimp only
      omega
    · rw [getFleet_setFleet]
    · rw [getFleet_setFleet]
    · rw [getFleet_setFleet]
      exact markFrom_length now _ 0 _
    · intro i hi
      rw [getFleet_setFleet]
      have hg := markFrom_getD now
        ((activeIdx (getFleet r f).instances).reverse.take n.toNat)
        (getFleet r f).instances 0 i hi
      rw [Nat.zero_add] at hg
      constructor
      · intro hcond
        rw [hg, if_pos]
        rw [hmem i, mem_activeIdx]
        refine ⟨⟨hi, hcond.1⟩, ?_⟩
        have := hcond.2
        omega
      · intro hcond
        rw [hg, if_neg]
        rw [hmem i, mem_activeIdx]
        rintro ⟨⟨-, hact⟩, habove⟩
        exact hcond ⟨hact, by omega⟩
    · intro g hgf
      exact getFleet_setFleet_ne r f g _ hgf

theorem metricsNonneg_apply (m : ActionsMetrics) (op : MOp) (h : metricsNonneg m) :
    metricsNonneg (applyMOp m op) := by
  obtain ⟨h1, h2, h3, h4, h5, h6, h7, h8, h9⟩ := h
  cases op <;>
    simp only [applyMOp, mReset, mDone, mSetPhase, mSetError, mSetScaleTargets,
      mIncLaunchRequested, mIncLaunchSucceeded, mIncLaunchFailed, mIncTerminateRequested,
      mIncTerminateSucceeded, mIncTerminateFailed, mSetRollingRestart, mUpdateLB,
      mSetLBBackends, metricsNonneg] <;>
    refine ⟨?_, ?_, ?_, ?_, ?_, ?_, ?_, ?_, ?_⟩ <;>
    first
      | assumption
      | omega

theorem metricsNonneg_runMOps (m : ActionsMetrics) (ops : List MOp) (h : metricsNonneg m) :
    metricsNonneg (runMOps m ops) := by
  induction ops generalizing m with
  | nil => exact h
  | cons op rest ih => exact ih _ (metricsNonneg_apply m op h)

/-- C10: starting from the zero metrics state, after any sequence of
exported metrics operations the counters launchRequested, launchSucceeded,
launchFailed, terminateRequested, terminateSucceeded, terminateFailed,
startTotal, targetTotal and lbBackends are all non-negative, even when
callers pass negative arguments. -/
theorem metrics_counters_nonneg (ops : List MOp) :
    metricsNonneg (runMOps ActionsMetrics.init ops) :=
  metricsNonneg_runMOps _ ops (by refine ⟨?_, ?_, ?_, ?_, ?_, ?_, ?_, ?_, ?_⟩ <;> decide)

theorem controlTick_some (cfg : FleetConfigM) (s : StoreRoot) (l : List InstanceInfo) :
    controlTick cfg (some s) true (some l)
      = (max (desiredFromConfig cfg) ((countActive s cfg.name : Int)),
         if (l.length : Int) < max (desiredFromConfig cfg) ((countActive s cfg.name : Int))
         then ControlAction.scaleUp
            (max (desiredFromConfig cfg) ((countActive s cfg.name : Int)))
         else ControlAction.noop) := by
  have hmax : ((if (countActive s cfg.name : Int) > desiredFromConfig cfg
      then (countActive s cfg.name : Int) else desiredFromConfig cfg))
      = max (desiredFromConfig cfg) ((countActive s cfg.name : Int)) := by
    split <;> omega
  simp only [controlTick, hmax]
  split <;> simp_all

/-- C1: each control-loop tick computes target = max(sum of configured
group counts, ledger active count); Scale(target) is invoked iff the remote
list succeeded and its length is below target; and any invoked target is at
least the ledger active count. -/
theorem control_tick_lower_bound (cfg : FleetConfigM) (s : StoreRoot)
    (listRes : Option (List InstanceInfo)) :
    (controlTick cfg (some s) true listRes).1
        = max (desiredFromConfig cfg) ((countActive s cfg.name : Int))
    ∧ ((controlTick cfg (some s) true listRes).2
          = ControlAction.scaleUp ((controlTick cfg (some s) true listRes).1)
        ↔ ∃ l, listRes = some l
            ∧ (l.length : Int) < (controlTick cfg (some s) true listRes).1)
    ∧ (∀ t, (controlTick cfg (some s) true listRes).2 = ControlAction.scaleUp t
        → (countActive s cfg.name : Int) ≤ t) := by
  cases listRes with
  | none =>
    have hmax : ((if (countActive s cfg.name : Int) > desiredFromConfig cfg
        then (countActive s cfg.name : Int) else desiredFromConfig cfg))
        = max (desiredFromConfig cfg) ((countActive s cfg.name : Int)) := by
      split <;> omega
    refine ⟨by simpa [controlTick] using hmax, by simp [controlTick], ?_⟩
    intro t ht
    simp [controlTick] at ht
  | some l =>
    rw [controlTick_some]
    by_cases hlt : (l.length : Int)
        < max (desiredFromConfig cfg) ((countActive s cfg.name : Int))
    · refine ⟨rfl, ?_, ?_⟩
      · dsimp only
        rw [if_pos hlt]
        exact ⟨fun _ => ⟨l, rfl, hlt⟩, fun _ => rfl⟩
      · intro t ht
        dsimp only at ht
        rw [if_pos hlt] at ht
        injection ht with h
        exact h ▸ le_max_right _ _
    · refine ⟨rfl, ?_, ?_⟩
      · dsimp only
        rw [if_neg hlt]
        constructor
        · intro h
          simp at h
        · rintro ⟨l2, hl2, hlen⟩
          cases hl2
          exact absurd hlen hlt
      · intro t ht
        dsimp only at ht
        rw [if_neg hlt] at ht
        simp at ht

/-- C4: the code never pops the pending scale queue.  The handler appends the
desired total and answers 202, but Scale itself leaves the queue untouched on
every input, so the head appended for a spawned Scale is still there after
that Scale has run to completion. -/
theorem scale_queue_never_popped :
    (∀ (cfg : FleetConfigM) (s : StoreRoot) (m : ActionsMetrics) (env : ScaleEnv)
        (now : Nat) (d : Int),
      (scaleModel cfg s m env now d).metrics.scaleQueue = m.scaleQueue)
    ∧ (scaleHandler "POST" (some 3) 0 ActionsMetrics.init).status = 202
    ∧ (scaleHandler "POST" (some 3) 0 ActionsMetrics.init).metrics.scaleQueue = [3]
    ∧ (scaleModel wCfg StoreRoot.empty
          (scaleHandler "POST" (some 3) 0 ActionsMetrics.init).metrics wEnvC3 5 3
        ).metrics.scaleQueue = [3] := by
  refine ⟨scaleModel_scaleQueue, rfl, rfl, ?_⟩
  rw [scaleModel_scaleQueue]
  rfl

/-- C3, counterexample: Scale(3) on an empty cloud where the first collected
launch result is a failure and a later one a success ends with zero Active
records and launchSucceeded = 0, not one record and launchSucceeded = 1 as the
claim asserts: the collection loop stops recording at the first failure. -/
theorem scale_up_first_failure_counterexample :
    (scaleModel wCfg StoreRoot.empty ActionsMetrics.init wEnvC3 5 3).res
        = Except.error (ScaleErr.launchFailed "boom")
    ∧ countActive (scaleModel wCfg StoreRoot.empty ActionsMetrics.init wEnvC3 5 3).store
          "web" = 0
    ∧ (scaleModel wCfg StoreRoot.empty ActionsMetrics.init
          wEnvC3 5 3).metrics.launchSucceeded = 0
    ∧ (scaleModel wCfg StoreRoot.empty ActionsMetrics.init
          wEnvC3 5 3).metrics.launchFailed = 1 :=
  ⟨rfl, rfl, rfl, rfl⟩

theorem control_tick_lower_bound_witness :
    (controlTick wCfg (some wStore2) true (some [wInst1])).1 = 3
    ∧ (∀ t, (controlTick wCfg (some wStore2) true (some [wInst1])).2
        = ControlAction.scaleUp t → (countActive wStore2 wCfg.name : Int) ≤ t) := by
  have h := control_tick_lower_bound wCfg wStore2 (some [wInst1])
  refine ⟨?_, h.2.2⟩
  rw [h.1]
  decide

theorem scale_up_first_failure_amended_witness :
    (scaleModel wCfg StoreRoot.empty ActionsMetrics.init wEnvC3b 5 2).res
        = Except.error (ScaleErr.launchFailed "boom")
    ∧ countActive (scaleModel wCfg StoreRoot.empty ActionsMetrics.init wEnvC3b 5 2).store
          wCfg.name = 1
    ∧ (scaleModel wCfg StoreRoot.empty ActionsMetrics.init
          wEnvC3b 5 2).metrics.launchSucceeded = 1 := by
  have h := scale_up_first_failure_amended wCfg StoreRoot.empty ActionsMetrics.init
    wEnvC3b 5 2 [] [wInst1] "boom" [] rfl (by decide) rfl
  refine ⟨h.1, ?_, ?_⟩
  · rw [h.2.1]
    decide
  · rw [h.2.2.1]
    rfl

theorem scale_delta_asymmetry_witness :
    (scaleModel wCfg StoreRoot.empty ActionsMetrics.init
        wEnvUp 5 2).metrics.launchRequested = 2
    ∧ (scaleModel wCfg wStore2 ActionsMetrics.init
        wEnvDown 5 1).metrics.terminateRequested = 1 := by
  have h1 := (scale_delta_asymmetry wCfg StoreRoot.empty ActionsMetrics.init
    wEnvUp 5 2 [] rfl).1 (by decide)
  have h2 := (scale_delta_asymmetry wCfg wStore2 ActionsMetrics.init
    wEnvDown 5 1 [wInst1, wInst2] rfl).2 (by decide) (by decide) (by decide)
  constructor
  · rw [h1.1]
    decide
  · rw [h2.1]
    decide

theorem rolling_restart_serial_order_witness :
    (rollingRestartModel wCfg wStore2 ActionsMetrics.init wRREnv 7).trace
        = rrBlocks (wCfg.lbEnabled && wRREnv.lbEnsure.isSome) wRREnv 0
            (activeRecordsLIFO wStore2 wCfg.name (countActive wStore2 wCfg.name : Int))
    ∧ down (rollingRestartModel wCfg wStore2 ActionsMetrics.init wRREnv 7).trace ≤ 1 := by
  have h := rolling_restart_serial_order wCfg wStore2 ActionsMetrics.init wRREnv 7
    (fun j l2 hl2 => by
      have h2 : some [wInst3] = some l2 := hl2
      cases h2
      rfl)
  exact ⟨h.1 rfl, h.2 _ [] (List.append_nil _).symm⟩

theorem scale_noop_and_second_call_noop_witness :
    scaleModel wCfg wStore2 ActionsMetrics.init wEnvNoop 5 2
        = ⟨Except.ok (), wStore2, ActionsMetrics.init, []⟩
    ∧ scaleModel wCfg (scaleModel wCfg wStore2 ActionsMetrics.init wEnvNoop 5 2).store
          ActionsMetrics.init wEnvNoop 7 2
        = ⟨Except.ok (), (scaleModel wCfg wStore2 ActionsMetrics.init wEnvNoop 5 2).store,
           ActionsMetrics.init, []⟩ := by
  have h := scale_noop_and_second_call_noop wCfg wStore2 ActionsMetrics.init
    ActionsMetrics.init wEnvNoop wEnvNoop 5 7 2 [wInst1, wInst2] [wInst1, wInst2]
  have h1 := h.1 rfl (by decide) (by decide)
  refine ⟨h1, ?_⟩
  refine h.2 (by rw [h1]) ?_ rfl (by decide)
  intro ls hls
  have h2 : some [wInst1, wInst2] = some ls := hls
  cases h2
  decide

theorem scale_verify_two_minute_timeout_witness :
    verifyActualMatches 1 (fun _ => some 2)
        = Except.error (ScaleErr.verifyTimeout ((2 : Nat) : Int) 1)
    ∧ verifyActualMatches 1 (fun _ => some 1) = Except.ok ()
    ∧ (scaleModel wCfg StoreRoot.empty ActionsMetrics.init wEnvC8 5 1).res
        = Except.error (ScaleErr.verifyTimeout ((2 : Nat) : Int) 1) := by
  have h := scale_verify_two_minute_timeout 1 (fun _ => some 2) (fun _ => some 1) 2 1 0
    wCfg StoreRoot.empty ActionsMetrics.init wEnvC8 5 []
  refine ⟨h.1 (fun j => ⟨2, rfl, by decide⟩) rfl, ?_, ?_⟩
  · exact h.2.1 (by decide) (fun j hj => absurd hj (Nat.not_lt_zero j)) rfl (by decide)
  · refine (h.2.2 rfl (by decide) ?_ (fun j => ⟨2, rfl, by decide⟩) rfl).1
    intro r hr
    have hx : wEnvC8.launchResults.take
        ((1 : Int) - ((List.length ([] : List InstanceInfo) : Nat) : Int)).toNat
        = [Except.ok wInst1] := rfl
    rw [hx] at hr
    exact ⟨wInst1, List.mem_singleton.mp hr⟩

theorem removeActiveInstances_spec_witness :
    removeActiveInstances wStore2 "web" (-1) 9 = (0, wStore2)
    ∧ (removeActiveInstances wStore2 "web" 1 9).1 = 1 := by
  have h := removeActiveInstances_spec wStore2 "web" (-1) 9
  have h2 := removeActiveInstances_spec wStore2 "web" 1 9
  refine ⟨h.1 (by decide), ?_⟩
  rw [(h2.2 (by decide)).1]
  decide

end Fleetctl
